import Mathlib

/-!
# spacegame: the per-frame state update of `main.go`

A shallow embedding of the game state and of the functions `Layout`,
`movePlayer`, `controlSpeed`, `hit`, `gameOverMenuControls`, `Update` and
`NewGame`.

Modelling conventions.

* The arithmetic is embedded twice, with the same control flow line by line.
  In the float64 embedding (`Game64`, `movePlayer64`, `controlSpeed64`,
  `hit64`, `Update64`, `NewGame64`) positions and speeds are binary64 values
  (`F64`): every sum, every difference and every conversion from `int` is
  rounded to the nearest binary64 value, ties to even, with overflow to the
  infinities, and every comparison with NaN is false. The results on
  positions, speeds, the boundary guard and the collision test are stated in
  it.
  In the exact embedding (`Game`, `movePlayer`, `controlSpeed`, `hit`,
  `Update`, `NewGame`) positions and speeds are rational numbers and no
  operation rounds. It carries the displacement over exact arithmetic and the
  results in which no arithmetic takes part: the mode transitions, the
  headings, the start state and the obstacle. These hold in the float64
  embedding as well.
* `angleRadians` only ever receives the constants `0`, `math.Pi`,
  `270 * math.Pi / 180` and `90 * math.Pi / 180`; it is stored as the rational
  coefficient of π, so `math.Pi` is `1` in that unit.
* `ebiten.IsKeyPressed` is a polled snapshot that is constant during one
  frame: each `Update` receives one `Keys` record.
* The package-level image handles `space`, `rocket`, `rock` are loaded from
  files at start-up; only `Bounds().Dx()` and `Bounds().Dy()` are consumed,
  so an image is its pair of dimensions and the three handles are a parameter.
-/

namespace Spacegame

/-- The Go type `mode` with its three constants. -/
inductive mode where
  | GameMode
  | GameOverMode
  | NewGameMode
  deriving DecidableEq, Repr

open mode

/-- An `*ebiten.Image`, reduced to `Bounds().Dx()` and `Bounds().Dy()`. -/
structure Image where
  Dx : Int
  Dy : Int
  deriving DecidableEq, Repr

instance : Inhabited Image := ⟨⟨0, 0⟩⟩

/-- The anonymous struct of the field `player`. -/
structure Player where
  image : Image
  xPos : ℚ
  yPos : ℚ
  speed : ℚ
  angleRadians : ℚ
  deriving DecidableEq, Repr

instance : Inhabited Player := ⟨⟨default, 0, 0, 0, 0⟩⟩

/-- The anonymous struct of the field `obstacle`. -/
structure Obstacle where
  image : Image
  xPos : ℚ
  yPos : ℚ
  deriving DecidableEq, Repr

instance : Inhabited Obstacle := ⟨⟨default, 0, 0⟩⟩

/-- The Go struct `Game`. -/
structure Game where
  background : Image
  height : Int
  width : Int
  mode : mode
  player : Player
  obstacle : Obstacle
  deriving DecidableEq, Repr

/-- The package-level image handles assigned once in `main`. -/
structure Assets where
  space : Image
  rocket : Image
  rock : Image
  deriving DecidableEq, Repr

/-- The polled key state of one frame: the seven keys the program queries. -/
structure Keys where
  KeyUp : Bool
  KeyDown : Bool
  KeyLeft : Bool
  KeyRight : Bool
  KeyS : Bool
  KeyD : Bool
  KeySpace : Bool
  deriving DecidableEq, Repr

/-- The constant `math.Pi`, in units of π. -/
def mathPi : ℚ := 1

/-- `Game.Layout`: returns `(g.width, g.height)` whatever the arguments. -/
def Layout (g : Game) (_outsideWidth _outsideHeight : Int) : Int × Int :=
  (g.width, g.height)

/-- `Game.movePlayer` in the exact embedding: the sum and the comparison of the
guard and the moves by the speed do not round. -/
def movePlayer (k : Keys) (g : Game) : Game :=
  if g.player.xPos + (g.player.image.Dx : ℚ) > (g.background.Dx : ℚ) then
    g
  else
    let g := if k.KeyUp then
      { g with player := { g.player with
          yPos := g.player.yPos - g.player.speed, angleRadians := 0 } }
      else g
    let g := if k.KeyDown then
      { g with player := { g.player with
          yPos := g.player.yPos + g.player.speed, angleRadians := mathPi } }
      else g
    let g := if k.KeyLeft then
      { g with player := { g.player with
          xPos := g.player.xPos - g.player.speed,
          angleRadians := 270 * mathPi / 180 } }
      else g
    let g := if k.KeyRight then
      { g with player := { g.player with
          xPos := g.player.xPos + g.player.speed,
          angleRadians := 90 * mathPi / 180 } }
      else g
    g

/-- `Game.controlSpeed` in the exact embedding: `speed + 1` and `speed - 1` do
not round (the `fmt.Printf` log line is not part of the state). -/
def controlSpeed (k : Keys) (g : Game) : Game :=
  let speed := g.player.speed
  let speed := if k.KeyS then speed + 1 else speed
  let speed := if k.KeyD then speed - 1 else speed
  let speed := if speed > 20 then 20 else speed
  let speed := if speed < 1 then 1 else speed
  if speed ≠ g.player.speed then
    { g with player := { g.player with speed := speed } }
  else g

/-- `Game.hit` in the exact embedding: the sums `ox + w` and `oy + h` do not
round. -/
def hit (g : Game) : Bool :=
  if g.player.xPos > g.obstacle.xPos ∧
      g.player.xPos < g.obstacle.xPos + (g.obstacle.image.Dx : ℚ) ∧
      g.player.yPos > g.obstacle.yPos ∧
      g.player.yPos < g.obstacle.yPos + (g.obstacle.image.Dy : ℚ) then
    true
  else
    false

/-- `Game.gameOverMenuControls`. -/
def gameOverMenuControls (k : Keys) (g : Game) : Game :=
  if k.KeySpace then { g with mode := NewGameMode } else g

/-- `NewGame`. `Layout` returns `(width, height)`, bound to `h, w` in that
order; the integer divisions are on non-negative constants. -/
def NewGame (a : Assets) : Game :=
  let myGame : Game :=
    { mode := GameMode, background := a.space, width := 640, height := 480,
      player := default, obstacle := default }
  let hw := Layout myGame 0 0
  let h := hw.1
  let w := hw.2
  let myGame := { myGame with player := { myGame.player with
      xPos := ((Int.tdiv h 2 : Int) : ℚ), yPos := ((Int.tdiv w 2 : Int) : ℚ) } }
  let myGame := { myGame with player := { myGame.player with speed := 12 } }
  let myGame := { myGame with player := { myGame.player with image := a.rocket } }
  let myGame := { myGame with obstacle := { myGame.obstacle with
      xPos := ((Int.tdiv h 4 : Int) : ℚ), yPos := ((Int.tdiv w 4 : Int) : ℚ) } }
  let myGame := { myGame with obstacle := { myGame.obstacle with image := a.rock } }
  myGame

/-- The two objects in play when `Update` returns: `receiver` is the `Game`
the caller's pointer refers to, `rebound` is the `Game` the method's own
variable `g` refers to. They differ only after the rebinding
`g = NewGame()` of the `NewGameMode` case, which does not write through the
caller's pointer. -/
structure UpdateObjects where
  receiver : Game
  rebound : Game
  deriving DecidableEq, Repr

/-- `Game.Update`, tracking both the caller's object and the object bound to
the method's variable `g`. -/
def UpdateObj (a : Assets) (k : Keys) (g : Game) : UpdateObjects :=
  match g.mode with
  | GameMode =>
    let g := controlSpeed k g
    let g := movePlayer k g
    let g := if hit g then { g with mode := GameOverMode } else g
    ⟨g, g⟩
  | GameOverMode =>
    let g := gameOverMenuControls k g
    ⟨g, g⟩
  | NewGameMode =>
    let g' := NewGame a
    let g' := { g' with mode := GameMode }
    ⟨g, g'⟩

/-- `Game.Update` as the frame loop observes it: the state of the `Game` the
caller passed as receiver, after the call. -/
def Update (a : Assets) (k : Keys) (g : Game) : Game :=
  (UpdateObj a k g).receiver

/-- The frame loop: one `Update` per polled key state, in order. -/
def run (a : Assets) (ks : List Keys) (g : Game) : Game :=
  ks.foldl (fun g k => Update a k g) g

/-- Sample image handles: a 640x480 background, a 32x32 rocket and a 64x64
rock. -/
def sampleAssets : Assets := ⟨⟨640, 480⟩, ⟨32, 32⟩, ⟨64, 64⟩⟩

/-- No key held. -/
def noKeys : Keys := ⟨false, false, false, false, false, false, false⟩

/-- Only Up held. -/
def upKey : Keys := { noKeys with KeyUp := true }

/-- Only Left held. -/
def leftKey : Keys := { noKeys with KeyLeft := true }

/-- Only Right held. -/
def rightKey : Keys := { noKeys with KeyRight := true }

/-- Only Space (restart) held. -/
def spaceKey : Keys := { noKeys with KeySpace := true }

/-- Up and Left held together. -/
def upLeftKeys : Keys := { noKeys with KeyUp := true, KeyLeft := true }

/-- Up and Down held together. -/
def upDownKeys : Keys := { noKeys with KeyUp := true, KeyDown := true }

/-- Left and Right held together. -/
def leftRightKeys : Keys := { noKeys with KeyLeft := true, KeyRight := true }

/-- All four directional keys held. -/
def allArrowKeys : Keys :=
  { noKeys with KeyUp := true, KeyDown := true, KeyLeft := true, KeyRight := true }

/-- The state after flying up-left into the rock (9 frames) and then pressing
Space on the game-over screen: mode `NewGameMode`. -/
def restarting : Game :=
  run sampleAssets (List.replicate 9 upLeftKeys ++ [spaceKey]) (NewGame sampleAssets)

/-- The indicator of a held key, as a number. -/
def held (b : Bool) : ℚ := if b then 1 else 0

/-- The speed rule in the words of the specification: add one when the
increase key is held, subtract one when the decrease key is held, then clamp
to [1, 20]. -/
def specSpeed (s : ℚ) (increase decrease : Bool) : ℚ :=
  max 1 (min 20 (s + held increase - held decrease))

/-- The four cardinal headings 0, π/2, π and 3π/2. -/
def isCardinal (angle : ℚ) : Prop :=
  angle = 0 ∨ angle = mathPi / 2 ∨ angle = mathPi ∨ angle = 3 * mathPi / 2

/-- IncreaseSpeed (S) and Right held together. -/
def speedUpRightKeys : Keys := { noKeys with KeyRight := true, KeyS := true }

/-- Every key except Space held. -/
def allButSpaceKeys : Keys := ⟨true, true, true, true, true, true, false⟩

/-- The state after flying up-left into the rock for 9 frames from the start:
mode `GameOverMode`. -/
def crashed : Game :=
  run sampleAssets (List.replicate 9 upLeftKeys) (NewGame sampleAssets)

/-! ## The float64 embedding

The same functions with `float64` arithmetic: every sum and difference is
rounded to the nearest binary64 value, ties to even, with overflow to the
infinities, and comparisons involving NaN are false. The two zeros are
identified: the program only adds, subtracts and compares, and none of these
produces different values from them. -/

/-- A binary64 value: a finite number, one of the two infinities, or NaN. A
finite value is carried as the rational number it denotes; every result of an
arithmetic operation is passed through `round64`. -/
inductive F64 where
  | fin (q : ℚ)
  | posInf
  | negInf
  | nan
  deriving DecidableEq, Repr

instance : Inhabited F64 := ⟨F64.fin 0⟩

namespace F64

/-- Round to the nearest integer, ties to the even one. -/
def roundEven (r : ℚ) : ℤ :=
  if r - (⌊r⌋ : ℚ) < 1 / 2 then ⌊r⌋
  else if 1 / 2 < r - (⌊r⌋ : ℚ) then ⌊r⌋ + 1
  else if ⌊r⌋ % 2 = 0 then ⌊r⌋ else ⌊r⌋ + 1

/-- The binary exponent of the binade of `q`, at least the smallest normal
exponent -1022 (below it the subnormal spacing applies). -/
def binade (q : ℚ) : ℤ := max (Int.log 2 |q|) (-1022)

/-- The spacing of binary64 values around `q`: 53 significant bits. -/
def ulp (q : ℚ) : ℚ := (2 : ℚ) ^ (binade q - 52)

/-- Rounding of an exact result to binary64: nearest multiple of the spacing,
ties to even, and the infinities from 2^1024 on. -/
@[irreducible] def round64 (q : ℚ) : F64 :=
  if (2 : ℚ) ^ (1024 : ℕ) ≤ (roundEven (q / ulp q) : ℚ) * ulp q then posInf
  else if (roundEven (q / ulp q) : ℚ) * ulp q ≤ -(2 : ℚ) ^ (1024 : ℕ) then negInf
  else fin ((roundEven (q / ulp q) : ℚ) * ulp q)

/-- The conversion `float64(n)` of an integer. -/
def ofInt (n : Int) : F64 := round64 (n : ℚ)

/-- The sum `x + y` in binary64. -/
def add : F64 → F64 → F64
  | fin a, fin b => round64 (a + b)
  | fin _, posInf => posInf
  | fin _, negInf => negInf
  | posInf, fin _ => posInf
  | posInf, posInf => posInf
  | negInf, fin _ => negInf
  | negInf, negInf => negInf
  | _, _ => nan

/-- The negation `-x`. -/
def neg : F64 → F64
  | fin a => fin (-a)
  | posInf => negInf
  | negInf => posInf
  | nan => nan

/-- The difference `x - y` in binary64. -/
def sub (x y : F64) : F64 := add x (neg y)

/-- The comparison `x < y`; false when either side is NaN. -/
def lt : F64 → F64 → Bool
  | fin a, fin b => decide (a < b)
  | fin _, posInf => true
  | negInf, fin _ => true
  | negInf, posInf => true
  | _, _ => false

/-- The comparison `x > y`. -/
def gt (x y : F64) : Bool := lt y x

/-- The comparison `x != y`; true when either side is NaN. -/
def ne : F64 → F64 → Bool
  | fin a, fin b => decide (a ≠ b)
  | posInf, posInf => false
  | negInf, negInf => false
  | _, _ => true

/-- A finite value between 1 and 20. -/
def inSpeedRange : F64 → Prop
  | fin s => 1 ≤ s ∧ s ≤ 20
  | _ => False

end F64

/-- The anonymous struct of the field `player`, with `float64` fields. The
heading is kept as the rational coefficient of π, as in `Player`. -/
structure Player64 where
  image : Image
  xPos : F64
  yPos : F64
  speed : F64
  angleRadians : ℚ
  deriving DecidableEq, Repr

instance : Inhabited Player64 := ⟨⟨default, F64.fin 0, F64.fin 0, F64.fin 0, 0⟩⟩

/-- The anonymous struct of the field `obstacle`, with `float64` fields. -/
structure Obstacle64 where
  image : Image
  xPos : F64
  yPos : F64
  deriving DecidableEq, Repr

instance : Inhabited Obstacle64 := ⟨⟨default, F64.fin 0, F64.fin 0⟩⟩

/-- The Go struct `Game`, with `float64` fields. -/
structure Game64 where
  background : Image
  height : Int
  width : Int
  mode : mode
  player : Player64
  obstacle : Obstacle64
  deriving DecidableEq, Repr

/-- `Game.Layout` on the float64 state. -/
def Layout64 (g : Game64) (_outsideWidth _outsideHeight : Int) : Int × Int :=
  (g.width, g.height)

/-- `Game.movePlayer` in float64. -/
def movePlayer64 (k : Keys) (g : Game64) : Game64 :=
  if F64.gt (F64.add g.player.xPos (F64.ofInt g.player.image.Dx))
      (F64.ofInt g.background.Dx) then
    g
  else
    let g := if k.KeyUp then
      { g with player := { g.player with
          yPos := F64.sub g.player.yPos g.player.speed, angleRadians := 0 } }
      else g
    let g := if k.KeyDown then
      { g with player := { g.player with
          yPos := F64.add g.player.yPos g.player.speed, angleRadians := mathPi } }
      else g
    let g := if k.KeyLeft then
      { g with player := { g.player with
          xPos := F64.sub g.player.xPos g.player.speed,
          angleRadians := 270 * mathPi / 180 } }
      else g
    let g := if k.KeyRight then
      { g with player := { g.player with
          xPos := F64.add g.player.xPos g.player.speed,
          angleRadians := 90 * mathPi / 180 } }
      else g
    g

/-- `Game.controlSpeed` in float64 (the `fmt.Printf` log line is not part of
the state). -/
def controlSpeed64 (k : Keys) (g : Game64) : Game64 :=
  let speed := g.player.speed
  let speed := if k.KeyS then F64.add speed (F64.fin 1) else speed
  let speed := if k.KeyD then F64.sub speed (F64.fin 1) else speed
  let speed := if F64.gt speed (F64.fin 20) then F64.fin 20 else speed
  let speed := if F64.lt speed (F64.fin 1) then F64.fin 1 else speed
  if F64.ne speed g.player.speed then
    { g with player := { g.player with speed := speed } }
  else g

/-- `Game.hit` in float64. -/
def hit64 (g : Game64) : Bool :=
  if F64.gt g.player.xPos g.obstacle.xPos ∧
      F64.lt g.player.xPos (F64.add g.obstacle.xPos (F64.ofInt g.obstacle.image.Dx)) ∧
      F64.gt g.player.yPos g.obstacle.yPos ∧
      F64.lt g.player.yPos (F64.add g.obstacle.yPos (F64.ofInt g.obstacle.image.Dy)) then
    true
  else
    false

/-- `Game.gameOverMenuControls` on the float64 state. -/
def gameOverMenuControls64 (k : Keys) (g : Game64) : Game64 :=
  if k.KeySpace then { g with mode := NewGameMode } else g

/-- `NewGame` in float64: the positions are `float64(h/2)` and so on. -/
def NewGame64 (a : Assets) : Game64 :=
  let myGame : Game64 :=
    { mode := GameMode, background := a.space, width := 640, height := 480,
      player := default, obstacle := default }
  let hw := Layout64 myGame 0 0
  let h := hw.1
  let w := hw.2
  let myGame := { myGame with player := { myGame.player with
      xPos := F64.ofInt (Int.tdiv h 2), yPos := F64.ofInt (Int.tdiv w 2) } }
  let myGame := { myGame with player := { myGame.player with speed := F64.fin 12 } }
  let myGame := { myGame with player := { myGame.player with image := a.rocket } }
  let myGame := { myGame with obstacle := { myGame.obstacle with
      xPos := F64.ofInt (Int.tdiv h 4), yPos := F64.ofInt (Int.tdiv w 4) } }
  let myGame := { myGame with obstacle := { myGame.obstacle with image := a.rock } }
  myGame

/-- The two objects in play when `Update` returns, as `UpdateObjects`. -/
structure UpdateObjects64 where
  receiver : Game64
  rebound : Game64
  deriving DecidableEq, Repr

/-- `Game.Update` in float64, tracking both the caller's object and the object
bound to the method's variable `g`. -/
def UpdateObj64 (a : Assets) (k : Keys) (g : Game64) : UpdateObjects64 :=
  match g.mode with
  | GameMode =>
    let g := controlSpeed64 k g
    let g := movePlayer64 k g
    let g := if hit64 g then { g with mode := GameOverMode } else g
    ⟨g, g⟩
  | GameOverMode =>
    let g := gameOverMenuControls64 k g
    ⟨g, g⟩
  | NewGameMode =>
    let g' := NewGame64 a
    let g' := { g' with mode := GameMode }
    ⟨g, g'⟩

/-- `Game.Update` in float64 as the frame loop observes it. -/
def Update64 (a : Assets) (k : Keys) (g : Game64) : Game64 :=
  (UpdateObj64 a k g).receiver

/-- The frame loop in float64: one `Update` per polled key state, in order. -/
def run64 (a : Assets) (ks : List Keys) (g : Game64) : Game64 :=
  ks.foldl (fun g k => Update64 a k g) g

/-- The speed rule in the words of the specification, with `float64`
operations: add one when the increase key is held, subtract one when the
decrease key is held, then clamp to [1, 20]. -/
def specSpeed64 (s : F64) (increase decrease : Bool) : F64 :=
  let s := if increase then F64.add s (F64.fin 1) else s
  let s := if decrease then F64.sub s (F64.fin 1) else s
  let s := if F64.gt s (F64.fin 20) then F64.fin 20 else s
  if F64.lt s (F64.fin 1) then F64.fin 1 else s

/-- The binary64 value nearest to 0.1. -/
def f0_1 : ℚ := 3602879701896397 / 2 ^ 55

/-- The binary64 value nearest to 64.1. -/
def f64_1 : ℚ := 2255318250894131 / 2 ^ 45

/-- The binary64 value nearest to 1.3. -/
def f1_3 : ℚ := 5854679515581645 / 2 ^ 52

/-- The binary64 value nearest to 2.3. -/
def f2_3 : ℚ := 2589569785738035 / 2 ^ 50

/-- The binary64 value just below `f1_3`, printed 1.2999999999999998. -/
def f1_3pred : ℚ := 1463669878895411 / 2 ^ 50

/-- A float64 game with the sample images, in Playing mode at speed 12, with
the player at `(x, y)` and the obstacle at `(ox, oy)`. -/
def sample64 (x y ox oy : F64) : Game64 :=
  { background := ⟨640, 480⟩, height := 480, width := 640, mode := GameMode,
    player := ⟨⟨32, 32⟩, x, y, F64.fin 12, 0⟩,
    obstacle := ⟨⟨64, 64⟩, ox, oy⟩ }

/-- A Playing state whose player point is inside the exact rectangle
`(0.1, 64.1) × (0, 64)` of the obstacle but on the rounded right edge. -/
def grazing : Game64 :=
  sample64 (F64.fin f64_1) (F64.fin 1) (F64.fin f0_1) (F64.fin 0)

/-- A Playing state with a rocket as wide as the background, 2^-60 to the right
of the left edge. -/
def sliver : Game64 :=
  { sample64 (F64.fin (1 / 2 ^ 60)) (F64.fin 240) (F64.fin 160) (F64.fin 120) with
    player := ⟨⟨640, 32⟩, F64.fin (1 / 2 ^ 60), F64.fin 240, F64.fin 12, 0⟩ }

/-- A Playing state far above the screen, at y = -2^53, with speed 1. -/
def deep : Game64 :=
  { sample64 (F64.fin 320) (F64.fin (-(2 ^ 53))) (F64.fin 160) (F64.fin 120) with
    player := ⟨⟨32, 32⟩, F64.fin 320, F64.fin (-(2 ^ 53)), F64.fin 1, 0⟩ }

/-- The start position with the non-integer speed `f1_3`. -/
def fractional : Game64 :=
  { sample64 (F64.fin 320) (F64.fin 240) (F64.fin 160) (F64.fin 120) with
    player := ⟨⟨32, 32⟩, F64.fin 320, F64.fin 240, F64.fin f1_3, 0⟩ }

/-- The start position with a NaN speed. -/
def nanSpeed : Game64 :=
  { sample64 (F64.fin 320) (F64.fin 240) (F64.fin 160) (F64.fin 120) with
    player := ⟨⟨32, 32⟩, F64.fin 320, F64.fin 240, F64.nan, 0⟩ }

/-- The start position at the top speed 20. -/
def topSpeed : Game64 :=
  { sample64 (F64.fin 320) (F64.fin 240) (F64.fin 160) (F64.fin 120) with
    player := ⟨⟨32, 32⟩, F64.fin 320, F64.fin 240, F64.fin 20, 0⟩ }

/-- The float64 state after 24 frames of holding Right from the start: the
rocket's right edge is exactly on the background's right edge. -/
def atRightEdge64 : Game64 :=
  run64 sampleAssets (List.replicate 24 rightKey) (NewGame64 sampleAssets)

/-- A float64 Playing state one Left step away from the inside of the rock. -/
def nearRock64 : Game64 :=
  sample64 (F64.fin 230) (F64.fin 130) (F64.fin 160) (F64.fin 120)

/-- A float64 Playing state whose rocket already overlaps the right edge. -/
def pastRightEdge64 : Game64 :=
  sample64 (F64.fin 620) (F64.fin 240) (F64.fin 160) (F64.fin 120)

/-- Only IncreaseSpeed (S) held. -/
def speedUpKey : Keys := { noKeys with KeyS := true }

/-- IncreaseSpeed (S) and DecreaseSpeed (D) held together. -/
def bothSpeedKeys : Keys := { noKeys with KeyS := true, KeyD := true }

/-- The binary64 value nearest to 322.3, the rounded sum of 320 and `f2_3`. -/
def f322_3 : ℚ := 5669961562115277 / 2 ^ 44

/-- The float64 start state after `n` frames of Right at speed 12. -/
def advanced64 (a : Assets) (n : Nat) : Game64 :=
  { background := a.space, height := 480, width := 640, mode := GameMode,
    player := ⟨a.rocket, F64.fin (320 + 12 * (n : ℚ)), F64.fin 240, F64.fin 12,
      if n = 0 then 0 else 90 * mathPi / 180⟩,
    obstacle := ⟨a.rock, F64.fin 160, F64.fin 120⟩ }

/-- The float64 start state after `n` frames of Up at speed 12. -/
def climbed64 (a : Assets) (n : Nat) : Game64 :=
  { background := a.space, height := 480, width := 640, mode := GameMode,
    player := ⟨a.rocket, F64.fin 320, F64.fin (240 - 12 * (n : ℚ)), F64.fin 12, 0⟩,
    obstacle := ⟨a.rock, F64.fin 160, F64.fin 120⟩ }

/-! ## Field lemmas -/

theorem controlSpeed_obstacle (k : Keys) (g : Game) :
    (controlSpeed k g).obstacle = g.obstacle := by
  unfold controlSpeed
  simp only
  split_ifs <;> rfl

theorem movePlayer_obstacle (k : Keys) (g : Game) :
    (movePlayer k g).obstacle = g.obstacle := by
  unfold movePlayer
  simp only
  split_ifs <;> rfl

theorem movePlayer_of_guard (k : Keys) (g : Game)
    (h : g.player.xPos + (g.player.image.Dx : ℚ) > (g.background.Dx : ℚ)) :
    movePlayer k g = g := by
  unfold movePlayer
  rw [if_pos h]

theorem Update_GameMode (a : Assets) (k : Keys) (g : Game) (hm : g.mode = GameMode) :
    Update a k g =
      if hit (movePlayer k (controlSpeed k g)) then
        { movePlayer k (controlSpeed k g) with mode := GameOverMode }
      else movePlayer k (controlSpeed k g) := by
  unfold Update UpdateObj
  rw [hm]

theorem Update_GameOverMode (a : Assets) (k : Keys) (g : Game)
    (hm : g.mode = GameOverMode) : Update a k g = gameOverMenuControls k g := by
  unfold Update UpdateObj
  rw [hm]

theorem Update_NewGameMode (a : Assets) (k : Keys) (g : Game)
    (hm : g.mode = NewGameMode) : Update a k g = g := by
  unfold Update UpdateObj
  rw [hm]

theorem run_cons (a : Assets) (k : Keys) (ks : List Keys) (g : Game) :
    run a (k :: ks) g = run a ks (Update a k g) := rfl

theorem NewGame_eq (a : Assets) : NewGame a =
    { background := a.space, height := 480, width := 640, mode := GameMode,
      player := ⟨a.rocket, 320, 240, 12, 0⟩,
      obstacle := ⟨a.rock, 160, 120⟩ } := by
  have h1 : Int.tdiv 640 2 = 320 := by decide
  have h2 : Int.tdiv 480 2 = 240 := by decide
  have h3 : Int.tdiv 640 4 = 160 := by decide
  have h4 : Int.tdiv 480 4 = 120 := by decide
  simp [NewGame, Layout, h1, h2, h3, h4]
  rfl

theorem movePlayer_xPos (k : Keys) (g : Game)
    (h : g.player.xPos + (g.player.image.Dx : ℚ) ≤ (g.background.Dx : ℚ)) :
    (movePlayer k g).player.xPos =
      g.player.xPos + g.player.speed * (held k.KeyRight - held k.KeyLeft) := by
  unfold movePlayer
  rw [if_neg (not_lt.mpr h)]
  rcases k with ⟨u, d, l, r, ks, kd, sp⟩
  cases u <;> cases d <;> cases l <;> cases r <;> simp [held] <;> ring

theorem movePlayer_yPos (k : Keys) (g : Game)
    (h : g.player.xPos + (g.player.image.Dx : ℚ) ≤ (g.background.Dx : ℚ)) :
    (movePlayer k g).player.yPos =
      g.player.yPos + g.player.speed * (held k.KeyDown - held k.KeyUp) := by
  unfold movePlayer
  rw [if_neg (not_lt.mpr h)]
  rcases k with ⟨u, d, l, r, ks, kd, sp⟩
  cases u <;> cases d <;> cases l <;> cases r <;> simp [held] <;> ring

theorem movePlayer_angleRadians (k : Keys) (g : Game)
    (h : g.player.xPos + (g.player.image.Dx : ℚ) ≤ (g.background.Dx : ℚ)) :
    (movePlayer k g).player.angleRadians =
      if k.KeyRight then mathPi / 2
      else if k.KeyLeft then 3 * mathPi / 2
      else if k.KeyDown then mathPi
      else if k.KeyUp then 0
      else g.player.angleRadians := by
  unfold movePlayer
  rw [if_neg (not_lt.mpr h)]
  rcases k with ⟨u, d, l, r, ks, kd, sp⟩
  cases u <;> cases d <;> cases l <;> cases r <;> norm_num [mathPi]

theorem Update_player_GameMode (a : Assets) (k : Keys) (g : Game)
    (hm : g.mode = GameMode) :
    (Update a k g).player = (movePlayer k (controlSpeed k g)).player := by
  rw [Update_GameMode a k g hm]
  split_ifs <;> rfl

theorem Update_player_of_not_GameMode (a : Assets) (k : Keys) (g : Game)
    (hm : g.mode ≠ GameMode) : (Update a k g).player = g.player := by
  cases hm2 : g.mode with
  | GameMode => exact absurd hm2 hm
  | GameOverMode =>
    rw [Update_GameOverMode a k g hm2]
    unfold gameOverMenuControls
    split_ifs <;> rfl
  | NewGameMode => rw [Update_NewGameMode a k g hm2]

theorem run_of_NewGameMode (a : Assets) (ks : List Keys) (g : Game)
    (hm : g.mode = NewGameMode) : run a ks g = g := by
  induction ks with
  | nil => rfl
  | cons k ks ih => rw [run_cons, Update_NewGameMode a k g hm, ih]

set_option maxRecDepth 20000 in
theorem restarting_eq : restarting =
    { background := ⟨640, 480⟩, height := 480, width := 640, mode := NewGameMode,
      player := ⟨⟨32, 32⟩, 212, 132, 12, 3 / 2⟩,
      obstacle := ⟨⟨64, 64⟩, 160, 120⟩ } := by
  norm_num [restarting, run, List.replicate, NewGame_eq, Update, UpdateObj,
    controlSpeed, movePlayer, hit, gameOverMenuControls, sampleAssets,
    upLeftKeys, spaceKey, noKeys, mathPi]

/-! ## Claims -/

/-- C2: in Restarting mode (`NewGameMode`) `Update` builds a fresh Playing
game but binds it only to the method's own variable: the `Game` the caller
passed as receiver is returned unchanged, still in `NewGameMode`, and stays
so over every further sequence of frames. -/
theorem restart_leaves_receiver_unchanged (a : Assets) (k : Keys) (g : Game)
    (hm : g.mode = NewGameMode) :
    Update a k g = g ∧
    (Update a k g).mode = NewGameMode ∧
    (UpdateObj a k g).rebound = { NewGame a with mode := GameMode } ∧
    (∀ ks : List Keys, run a ks g = g) := by
  refine ⟨Update_NewGameMode a k g hm, ?_, ?_, fun ks => run_of_NewGameMode a ks g hm⟩
  · rw [Update_NewGameMode a k g hm, hm]
  · unfold UpdateObj
    rw [hm]

/-- C2 evaluated on a reachable Restarting state: the frame loop's game is
still Restarting after `Update`, with the player where the crash left it and
not at the start position. -/
theorem restart_leaves_receiver_unchanged_witness :
    restarting.mode = NewGameMode ∧
    (Update sampleAssets noKeys restarting).mode = NewGameMode ∧
    (Update sampleAssets noKeys restarting).mode ≠ GameMode ∧
    (Update sampleAssets noKeys restarting).player.xPos = 212 ∧
    (NewGame sampleAssets).player.xPos = 320 := by
  have hm : restarting.mode = NewGameMode := by rw [restarting_eq]
  have h := restart_leaves_receiver_unchanged sampleAssets noKeys restarting hm
  refine ⟨hm, h.2.1, ?_, ?_, ?_⟩
  · rw [h.2.1]; decide
  · rw [h.1, restarting_eq]
  · norm_num [NewGame_eq]

/-- C7, as stated, fails: the start position is not (height/2, width/2) =
(240, 320); `NewGame` puts the player at x = 320, y = 240. -/
theorem initial_position_counterexample :
    (NewGame sampleAssets).height = 480 ∧ (NewGame sampleAssets).width = 640 ∧
    (NewGame sampleAssets).player.xPos = 320 ∧
    (NewGame sampleAssets).player.yPos = 240 ∧
    ¬ ((NewGame sampleAssets).player.xPos
          = ((Int.tdiv (NewGame sampleAssets).height 2 : Int) : ℚ) ∧
        (NewGame sampleAssets).player.yPos
          = ((Int.tdiv (NewGame sampleAssets).width 2 : Int) : ℚ)) ∧
    ¬ ((NewGame sampleAssets).player.xPos = 240 ∧
        (NewGame sampleAssets).player.yPos = 320) := by
  have h1 : Int.tdiv 480 2 = 240 := by decide
  have h2 : Int.tdiv 640 2 = 320 := by decide
  rw [NewGame_eq]
  norm_num [h1, h2]

/-- C7, amended: the game returned by `NewGame`, and so the game a restart
constructs, has player position (x, y) = (width/2, height/2), that is x = 320
and y = 240 on the 640x480 canvas. -/
theorem initial_position_is_centre (a : Assets) :
    (NewGame a).player.xPos = ((Int.tdiv (NewGame a).width 2 : Int) : ℚ) ∧
    (NewGame a).player.yPos = ((Int.tdiv (NewGame a).height 2 : Int) : ℚ) ∧
    (NewGame a).player.xPos = 320 ∧ (NewGame a).player.yPos = 240 ∧
    (NewGame a).width = 640 ∧ (NewGame a).height = 480 ∧
    (∀ (k : Keys) (g : Game), g.mode = NewGameMode →
      (UpdateObj a k g).rebound.player.xPos = 320 ∧
      (UpdateObj a k g).rebound.player.yPos = 240) := by
  have h1 : Int.tdiv 480 2 = 240 := by decide
  have h2 : Int.tdiv 640 2 = 320 := by decide
  refine ⟨?_, ?_, ?_, ?_, ?_, ?_, fun k g hm => ?_⟩
  · rw [NewGame_eq]; norm_num [h2]
  · rw [NewGame_eq]; norm_num [h1]
  · rw [NewGame_eq]
  · rw [NewGame_eq]
  · rw [NewGame_eq]
  · rw [NewGame_eq]
  · unfold UpdateObj
    rw [hm, NewGame_eq]
    exact ⟨rfl, rfl⟩

/-- C7 amended, evaluated on the reachable Restarting state: the game the
restart constructs has its player at (320, 240). -/
theorem initial_position_is_centre_witness :
    restarting.mode = NewGameMode ∧
    (UpdateObj sampleAssets noKeys restarting).rebound.player.xPos = 320 ∧
    (UpdateObj sampleAssets noKeys restarting).rebound.player.yPos = 240 := by
  have hm : restarting.mode = NewGameMode := by rw [restarting_eq]
  exact ⟨hm, (initial_position_is_centre sampleAssets).2.2.2.2.2.2 noKeys restarting hm⟩

/-- C8: when the boundary guard does not fire, `movePlayer` applies each held
directional key independently: x moves by speed times (Right - Left) and y by
speed times (Down - Up); opposite keys held together cancel, and with no
directional key held the position is unchanged. -/
theorem movement_displacement (k : Keys) (g : Game)
    (h : g.player.xPos + (g.player.image.Dx : ℚ) ≤ (g.background.Dx : ℚ)) :
    (movePlayer k g).player.xPos =
      g.player.xPos + g.player.speed *
        ((if k.KeyRight then 1 else 0) - (if k.KeyLeft then 1 else 0)) ∧
    (movePlayer k g).player.yPos =
      g.player.yPos + g.player.speed *
        ((if k.KeyDown then 1 else 0) - (if k.KeyUp then 1 else 0)) ∧
    (k.KeyLeft = k.KeyRight → (movePlayer k g).player.xPos = g.player.xPos) ∧
    (k.KeyUp = k.KeyDown → (movePlayer k g).player.yPos = g.player.yPos) ∧
    (k.KeyUp = false → k.KeyDown = false → k.KeyLeft = false →
      k.KeyRight = false →
      (movePlayer k g).player.xPos = g.player.xPos ∧
      (movePlayer k g).player.yPos = g.player.yPos) := by
  have hx := movePlayer_xPos k g h
  have hy := movePlayer_yPos k g h
  simp only [held] at hx hy
  refine ⟨hx, hy, fun e => ?_, fun e => ?_, fun hu hd hl hr => ⟨?_, ?_⟩⟩
  · rw [hx, e]; ring
  · rw [hy, e]; ring
  · rw [hx, hl, hr]; simp
  · rw [hy, hu, hd]; simp

/-- C8 evaluated on the start state with Up and Left held: the player moves
from (320, 240) to (308, 228). -/
theorem movement_displacement_witness :
    (NewGame sampleAssets).player.xPos + ((NewGame sampleAssets).player.image.Dx : ℚ)
      ≤ ((NewGame sampleAssets).background.Dx : ℚ) ∧
    (movePlayer upLeftKeys (NewGame sampleAssets)).player.xPos = 308 ∧
    (movePlayer upLeftKeys (NewGame sampleAssets)).player.yPos = 228 := by
  have hg : (NewGame sampleAssets).player.xPos
      + ((NewGame sampleAssets).player.image.Dx : ℚ)
      ≤ ((NewGame sampleAssets).background.Dx : ℚ) := by
    rw [NewGame_eq]; norm_num [sampleAssets]
  have h := movement_displacement upLeftKeys (NewGame sampleAssets) hg
  refine ⟨hg, ?_, ?_⟩
  · rw [h.1, NewGame_eq]; norm_num [upLeftKeys, noKeys]
  · rw [h.2.1, NewGame_eq]; norm_num [upLeftKeys, noKeys]

/-- C9: when the boundary guard does not fire, the heading after `movePlayer`
is the angle of the last held key in the check order up, down, left, right
(Up = 0, Down = π, Left = 3π/2, Right = π/2, as multiples of `mathPi`): Right
overrides Left overrides Down overrides Up, and with no directional key held
the heading is unchanged. -/
theorem heading_last_evaluated_wins (k : Keys) (g : Game)
    (h : g.player.xPos + (g.player.image.Dx : ℚ) ≤ (g.background.Dx : ℚ)) :
    (movePlayer k g).player.angleRadians =
      (if k.KeyRight then mathPi / 2
      else if k.KeyLeft then 3 * mathPi / 2
      else if k.KeyDown then mathPi
      else if k.KeyUp then 0
      else g.player.angleRadians) ∧
    (k.KeyRight = true → (movePlayer k g).player.angleRadians = mathPi / 2) ∧
    (k.KeyRight = false → k.KeyLeft = true →
      (movePlayer k g).player.angleRadians = 3 * mathPi / 2) ∧
    (k.KeyRight = false → k.KeyLeft = false → k.KeyDown = true →
      (movePlayer k g).player.angleRadians = mathPi) ∧
    (k.KeyRight = false → k.KeyLeft = false → k.KeyDown = false →
      k.KeyUp = true → (movePlayer k g).player.angleRadians = 0) ∧
    (k.KeyRight = false → k.KeyLeft = false → k.KeyDown = false →
      k.KeyUp = false →
      (movePlayer k g).player.angleRadians = g.player.angleRadians) := by
  have ha := movePlayer_angleRadians k g h
  refine ⟨ha, fun hr => ?_, fun hr hl => ?_, fun hr hl hd => ?_,
    fun hr hl hd hu => ?_, fun hr hl hd hu => ?_⟩
  · rw [ha, hr]; simp
  · rw [ha, hr, hl]; simp
  · rw [ha, hr, hl, hd]; simp
  · rw [ha, hr, hl, hd, hu]; simp
  · rw [ha, hr, hl, hd, hu]; simp

/-- C9 evaluated on the start state with all four directional keys held: the
heading is Right's angle, π/2. -/
theorem heading_last_evaluated_wins_witness :
    (NewGame sampleAssets).player.xPos + ((NewGame sampleAssets).player.image.Dx : ℚ)
      ≤ ((NewGame sampleAssets).background.Dx : ℚ) ∧
    (movePlayer allArrowKeys (NewGame sampleAssets)).player.angleRadians
      = mathPi / 2 := by
  have hg : (NewGame sampleAssets).player.xPos
      + ((NewGame sampleAssets).player.image.Dx : ℚ)
      ≤ ((NewGame sampleAssets).background.Dx : ℚ) := by
    rw [NewGame_eq]; norm_num [sampleAssets]
  exact ⟨hg, (heading_last_evaluated_wins allArrowKeys (NewGame sampleAssets) hg).2.1 rfl⟩

/-- C10, as stated, fails: on the start state, where the guard does not fire,
Up and Down held together give Down's angle π, not Up's angle 0, and Left and
Right held together give Right's angle π/2, not Left's angle 3π/2. -/
theorem heading_tie_break_counterexample :
    (NewGame sampleAssets).player.xPos + ((NewGame sampleAssets).player.image.Dx : ℚ)
      ≤ ((NewGame sampleAssets).background.Dx : ℚ) ∧
    (movePlayer upDownKeys (NewGame sampleAssets)).player.angleRadians = mathPi ∧
    (movePlayer upDownKeys (NewGame sampleAssets)).player.angleRadians ≠ 0 ∧
    (movePlayer leftRightKeys (NewGame sampleAssets)).player.angleRadians
      = mathPi / 2 ∧
    (movePlayer leftRightKeys (NewGame sampleAssets)).player.angleRadians
      ≠ 3 * mathPi / 2 := by
  rw [NewGame_eq]
  norm_num [movePlayer, sampleAssets, upDownKeys, leftRightKeys, noKeys, mathPi]

/-- C10, amended: when several directional keys are held in the same frame
and the boundary guard does not fire, the heading resolves by the fixed check
order in which right beats left beats down beats up; with Up and Down both
held (and neither Left nor Right) the heading is Down's angle π, and with Left
and Right both held it is Right's angle π/2. -/
theorem heading_tie_break (k : Keys) (g : Game)
    (h : g.player.xPos + (g.player.image.Dx : ℚ) ≤ (g.background.Dx : ℚ)) :
    (k.KeyUp = true → k.KeyDown = true → k.KeyLeft = false →
      k.KeyRight = false → (movePlayer k g).player.angleRadians = mathPi) ∧
    (k.KeyLeft = true → k.KeyRight = true →
      (movePlayer k g).player.angleRadians = 90 * mathPi / 180) ∧
    (k.KeyRight = true → (movePlayer k g).player.angleRadians = 90 * mathPi / 180) ∧
    (k.KeyLeft = true → k.KeyRight = false →
      (movePlayer k g).player.angleRadians = 270 * mathPi / 180) ∧
    (k.KeyDown = true → k.KeyLeft = false → k.KeyRight = false →
      (movePlayer k g).player.angleRadians = mathPi) ∧
    (k.KeyUp = true → k.KeyDown = false → k.KeyLeft = false →
      k.KeyRight = false → (movePlayer k g).player.angleRadians = 0) := by
  have ha := movePlayer_angleRadians k g h
  refine ⟨fun hu hd hl hr => ?_, fun hl hr => ?_, fun hr => ?_, fun hl hr => ?_,
    fun hd hl hr => ?_, fun hu hd hl hr => ?_⟩
  · rw [ha, hr, hl, hd]; simp
  · rw [ha, hr]; norm_num [mathPi]
  · rw [ha, hr]; norm_num [mathPi]
  · rw [ha, hr, hl]; norm_num [mathPi]
  · rw [ha, hr, hl, hd]; simp
  · rw [ha, hr, hl, hd, hu]; simp

/-- C10 amended, evaluated on the start state with Up and Down held: the
heading is Down's angle π. -/
theorem heading_tie_break_witness :
    (NewGame sampleAssets).player.xPos + ((NewGame sampleAssets).player.image.Dx : ℚ)
      ≤ ((NewGame sampleAssets).background.Dx : ℚ) ∧
    (movePlayer upDownKeys (NewGame sampleAssets)).player.angleRadians = mathPi := by
  have hg : (NewGame sampleAssets).player.xPos
      + ((NewGame sampleAssets).player.image.Dx : ℚ)
      ≤ ((NewGame sampleAssets).background.Dx : ℚ) := by
    rw [NewGame_eq]; norm_num [sampleAssets]
  exact ⟨hg, (heading_tie_break upDownKeys (NewGame sampleAssets) hg).1 rfl rfl rfl rfl⟩

/-! ## Helper lemmas for speed control, game-over and start-up -/

theorem controlSpeed_speed (k : Keys) (g : Game) :
    (controlSpeed k g).player.speed = specSpeed g.player.speed k.KeyS k.KeyD := by
  unfold controlSpeed specSpeed held
  rcases k with ⟨u, d, l, r, ks, kd, sp⟩
  cases ks <;> cases kd <;> simp only [Bool.false_eq_true, if_true, if_false] <;>
    split_ifs <;> simp_all [max_def, min_def] <;> split_ifs <;> linarith

theorem controlSpeed_eq (k : Keys) (g : Game) :
    controlSpeed k g =
      { g with player := { g.player with
          speed := specSpeed g.player.speed k.KeyS k.KeyD } } := by
  have key : ∀ s : ℚ,
      (if s ≠ g.player.speed then
        ({ g with player := { g.player with speed := s } } : Game) else g)
        = { g with player := { g.player with speed := s } } := by
    intro s
    split_ifs with hne
    · rfl
    · rw [not_not] at hne
      rw [hne]
  obtain ⟨s, hs⟩ : ∃ s : ℚ, controlSpeed k g
      = { g with player := { g.player with speed := s } } :=
    ⟨_, by unfold controlSpeed; exact key _⟩
  have h := controlSpeed_speed k g
  rw [hs] at h
  simp only at h
  rw [hs, h]

theorem controlSpeed_angleRadians (k : Keys) (g : Game) :
    (controlSpeed k g).player.angleRadians = g.player.angleRadians := by
  rw [controlSpeed_eq]

theorem gameOverMenuControls_of_not_space (k : Keys) (g : Game)
    (h : k.KeySpace = false) : gameOverMenuControls k g = g := by
  unfold gameOverMenuControls
  simp [h]

theorem gameOverMenuControls_of_space (k : Keys) (g : Game)
    (h : k.KeySpace = true) :
    gameOverMenuControls k g = { g with mode := NewGameMode } := by
  unfold gameOverMenuControls
  simp [h]

theorem run_GameOver_no_space (a : Assets) (ks : List Keys) (g : Game)
    (hm : g.mode = GameOverMode) (hk : ∀ k ∈ ks, k.KeySpace = false) :
    run a ks g = g := by
  induction ks with
  | nil => rfl
  | cons k ks ih =>
    rw [run_cons, Update_GameOverMode a k g hm,
      gameOverMenuControls_of_not_space k g (hk k (List.mem_cons_self k ks))]
    exact ih (fun k' hk' => hk k' (List.mem_cons_of_mem k hk'))

set_option maxRecDepth 20000 in
theorem crashed_eq : crashed =
    { background := ⟨640, 480⟩, height := 480, width := 640, mode := GameOverMode,
      player := ⟨⟨32, 32⟩, 212, 132, 12, 3 / 2⟩,
      obstacle := ⟨⟨64, 64⟩, 160, 120⟩ } := by
  norm_num [crashed, run, List.replicate, NewGame_eq, Update, UpdateObj,
    controlSpeed, movePlayer, hit, sampleAssets, upLeftKeys, noKeys, mathPi]

/-! ## Claims, continued -/

/-- C12: in GameOver mode, any number of Updates with the Restart key not held,
whatever the other six keys are, leaves the whole game unchanged: the mode
stays GameOver and player position, speed, heading and obstacle keep their
values. -/
theorem gameOver_idempotent (a : Assets) (g : Game) (ks : List Keys)
    (hm : g.mode = GameOverMode) (hk : ∀ k ∈ ks, k.KeySpace = false) :
    run a ks g = g ∧ (run a ks g).mode = GameOverMode ∧
    (run a ks g).player = g.player ∧ (run a ks g).obstacle = g.obstacle := by
  have h := run_GameOver_no_space a ks g hm hk
  rw [h]
  exact ⟨rfl, hm, rfl, rfl⟩

/-- C12 evaluated on the crashed state: five frames with every key but Space
held leave it as it was. -/
theorem gameOver_idempotent_witness :
    crashed.mode = GameOverMode ∧
    (∀ k ∈ List.replicate 5 allButSpaceKeys, k.KeySpace = false) ∧
    run sampleAssets (List.replicate 5 allButSpaceKeys) crashed = crashed := by
  have hm : crashed.mode = GameOverMode := by rw [crashed_eq]
  have hk : ∀ k ∈ List.replicate 5 allButSpaceKeys, k.KeySpace = false := by
    intro k hk
    rw [List.eq_of_mem_replicate hk]
    rfl
  exact ⟨hm, hk, (gameOver_idempotent sampleAssets crashed _ hm hk).1⟩

/-- C13: in GameOver mode, `Update` with the Restart key held sets the mode to
Restarting (`NewGameMode`) and changes no other field; the mode after `Update`
is Restarting exactly when the Restart key is held, and it is never Playing. -/
theorem gameOver_to_restarting (a : Assets) (k : Keys) (g : Game)
    (hm : g.mode = GameOverMode) :
    (k.KeySpace = true → Update a k g = { g with mode := NewGameMode }) ∧
    ((Update a k g).mode = NewGameMode ↔ k.KeySpace = true) ∧
    (k.KeySpace = false → Update a k g = g) ∧
    (Update a k g).mode ≠ GameMode := by
  rw [Update_GameOverMode a k g hm]
  cases hsp : k.KeySpace with
  | false =>
    rw [gameOverMenuControls_of_not_space k g hsp, hm]
    simp
  | true =>
    rw [gameOverMenuControls_of_space k g hsp]
    simp

/-- C13 evaluated on the crashed state with Space held: the next state is the
same game in Restarting mode. -/
theorem gameOver_to_restarting_witness :
    crashed.mode = GameOverMode ∧
    Update sampleAssets spaceKey crashed = { crashed with mode := NewGameMode } ∧
    (Update sampleAssets spaceKey crashed).mode = NewGameMode := by
  have hm : crashed.mode = GameOverMode := by rw [crashed_eq]
  have h := gameOver_to_restarting sampleAssets spaceKey crashed hm
  exact ⟨hm, h.1 rfl, h.2.1.mpr rfl⟩

/-- C14: the game returned by `NewGame` has mode Playing, player speed 12 and
heading 0, and its `Layout` returns the fixed canvas (640, 480) for every pair
of outside dimensions. -/
theorem newGame_defaults (a : Assets) :
    (NewGame a).mode = GameMode ∧ (NewGame a).player.speed = 12 ∧
    (NewGame a).player.angleRadians = 0 ∧
    (∀ outsideWidth outsideHeight : Int,
      Layout (NewGame a) outsideWidth outsideHeight = (640, 480)) := by
  rw [NewGame_eq]
  exact ⟨rfl, rfl, rfl, fun _ _ => rfl⟩

/-! ## Helper lemmas for the reachable-state invariants -/

theorem movePlayer_isCardinal (k : Keys) (g : Game)
    (h : isCardinal g.player.angleRadians) :
    isCardinal (movePlayer k g).player.angleRadians := by
  by_cases hg : g.player.xPos + (g.player.image.Dx : ℚ) > (g.background.Dx : ℚ)
  · rw [movePlayer_of_guard k g hg]
    exact h
  · rw [movePlayer_angleRadians k g (not_lt.mp hg)]
    unfold isCardinal
    split_ifs
    · exact Or.inr (Or.inl rfl)
    · exact Or.inr (Or.inr (Or.inr rfl))
    · exact Or.inr (Or.inr (Or.inl rfl))
    · exact Or.inl rfl
    · exact h

theorem Update_isCardinal (a : Assets) (k : Keys) (g : Game)
    (h : isCardinal g.player.angleRadians) :
    isCardinal (Update a k g).player.angleRadians := by
  by_cases hm : g.mode = GameMode
  · rw [Update_player_GameMode a k g hm]
    apply movePlayer_isCardinal
    rw [controlSpeed_angleRadians]
    exact h
  · rw [Update_player_of_not_GameMode a k g hm]
    exact h

theorem run_isCardinal (a : Assets) (ks : List Keys) (g : Game)
    (h : isCardinal g.player.angleRadians) :
    isCardinal (run a ks g).player.angleRadians := by
  induction ks generalizing g with
  | nil => exact h
  | cons k ks ih =>
    rw [run_cons]
    exact ih _ (Update_isCardinal a k g h)

theorem controlSpeed_width_height (k : Keys) (g : Game) :
    (controlSpeed k g).width = g.width ∧ (controlSpeed k g).height = g.height := by
  rw [controlSpeed_eq]
  exact ⟨rfl, rfl⟩

theorem movePlayer_width_height (k : Keys) (g : Game) :
    (movePlayer k g).width = g.width ∧ (movePlayer k g).height = g.height := by
  unfold movePlayer
  simp only
  split_ifs <;> exact ⟨rfl, rfl⟩

theorem Update_frame (a : Assets) (k : Keys) (g : Game) :
    (Update a k g).obstacle = g.obstacle ∧ (Update a k g).width = g.width ∧
    (Update a k g).height = g.height := by
  cases hm : g.mode with
  | GameMode =>
    have ho : (movePlayer k (controlSpeed k g)).obstacle = g.obstacle := by
      rw [movePlayer_obstacle, controlSpeed_obstacle]
    have hw : (movePlayer k (controlSpeed k g)).width = g.width := by
      rw [(movePlayer_width_height k _).1, (controlSpeed_width_height k g).1]
    have hh : (movePlayer k (controlSpeed k g)).height = g.height := by
      rw [(movePlayer_width_height k _).2, (controlSpeed_width_height k g).2]
    rw [Update_GameMode a k g hm]
    split_ifs <;> exact ⟨ho, hw, hh⟩
  | GameOverMode =>
    rw [Update_GameOverMode a k g hm]
    unfold gameOverMenuControls
    split_ifs <;> exact ⟨rfl, rfl, rfl⟩
  | NewGameMode =>
    rw [Update_NewGameMode a k g hm]
    exact ⟨rfl, rfl, rfl⟩

theorem run_frame (a : Assets) (ks : List Keys) (g : Game) :
    (run a ks g).obstacle = g.obstacle ∧ (run a ks g).width = g.width ∧
    (run a ks g).height = g.height := by
  induction ks generalizing g with
  | nil => exact ⟨rfl, rfl, rfl⟩
  | cons k ks ih =>
    rw [run_cons]
    have h := Update_frame a k g
    have h2 := ih (Update a k g)
    exact ⟨h2.1.trans h.1, h2.2.1.trans h.2.1, h2.2.2.trans h.2.2⟩

/-! ## Claims on reachable states -/

/-- C15: in every state reachable from `NewGame` by any sequence of Updates
with any key inputs, the heading is one of the four cardinal values 0, π/2, π
and 3π/2 (as multiples of `mathPi`); no other angle is produced. -/
theorem heading_invariant (a : Assets) (ks : List Keys) :
    (run a ks (NewGame a)).player.angleRadians = 0 ∨
    (run a ks (NewGame a)).player.angleRadians = mathPi / 2 ∨
    (run a ks (NewGame a)).player.angleRadians = mathPi ∨
    (run a ks (NewGame a)).player.angleRadians = 3 * mathPi / 2 := by
  have h : isCardinal (NewGame a).player.angleRadians := by
    rw [NewGame_eq]
    exact Or.inl rfl
  exact run_isCardinal a ks _ h

/-- C16: `Update` leaves the obstacle (position and image) and the screen
width and height unchanged, in every mode and for every key state; so in
every state reachable from `NewGame` the obstacle is at its constructed
position (160, 120). -/
theorem obstacle_never_moves (a : Assets) :
    (∀ (k : Keys) (g : Game),
      (Update a k g).obstacle.xPos = g.obstacle.xPos ∧
      (Update a k g).obstacle.yPos = g.obstacle.yPos ∧
      (Update a k g).obstacle = g.obstacle ∧
      (Update a k g).width = g.width ∧ (Update a k g).height = g.height) ∧
    (∀ ks : List Keys,
      (run a ks (NewGame a)).obstacle = (NewGame a).obstacle ∧
      (run a ks (NewGame a)).obstacle.xPos = 160 ∧
      (run a ks (NewGame a)).obstacle.yPos = 120 ∧
      (run a ks (NewGame a)).width = 640 ∧
      (run a ks (NewGame a)).height = 480) := by
  refine ⟨fun k g => ?_, fun ks => ?_⟩
  · have h := Update_frame a k g
    rw [h.1]
    exact ⟨rfl, rfl, rfl, h.2.1, h.2.2⟩
  · have h := run_frame a ks (NewGame a)
    rw [h.1, h.2.1, h.2.2, NewGame_eq]
    exact ⟨rfl, rfl, rfl, rfl, rfl⟩

/-! ## Rounding to binary64 -/

namespace F64

theorem roundEven_of_near (r : ℚ) (n : ℤ) (h1 : (n : ℚ) - 1 / 2 < r)
    (h2 : r < (n : ℚ) + 1 / 2) : roundEven r = n := by
  unfold roundEven
  by_cases hn : (n : ℚ) ≤ r
  · have hf : ⌊r⌋ = n := by
      rw [Int.floor_eq_iff]
      constructor
      · exact hn
      · linarith
    rw [hf, if_pos (by linarith)]
  · have hf : ⌊r⌋ = n - 1 := by
      rw [Int.floor_eq_iff]
      push_cast
      constructor <;> linarith
    have hn2 : r < (n : ℚ) := not_le.mp hn
    rw [hf]
    push_cast
    rw [if_neg (by linarith), if_pos (by linarith)]
    ring

theorem roundEven_of_tie (r : ℚ) (n : ℤ) (h : r = (n : ℚ) + 1 / 2) :
    roundEven r = if n % 2 = 0 then n else n + 1 := by
  unfold roundEven
  have hf : ⌊r⌋ = n := by
    rw [Int.floor_eq_iff]
    constructor <;> linarith
  rw [hf, if_neg (by linarith), if_neg (by linarith)]

theorem roundEven_intCast (n : ℤ) : roundEven (n : ℚ) = n :=
  roundEven_of_near _ n (by linarith) (by linarith)

theorem binade_eq (q : ℚ) (e : ℤ) (h1 : (2 : ℚ) ^ e ≤ |q|) (h2 : |q| < (2 : ℚ) ^ (e + 1))
    (he : -1022 ≤ e) : binade q = e := by
  have hpos : 0 < |q| := lt_of_lt_of_le (zpow_pos (by norm_num) e) h1
  have hlog : Int.log 2 |q| = e := by
    apply le_antisymm
    · have := (Int.lt_zpow_iff_log_lt (b := 2) (by norm_num) hpos (x := e + 1)).mp
        (by exact_mod_cast h2)
      omega
    · exact (Int.zpow_le_iff_le_log (b := 2) (by norm_num) hpos).mp (by exact_mod_cast h1)
  unfold binade
  rw [hlog]
  exact max_eq_left he

/-- The rounding of `q` once its binade `e` and its rounded count `c` of
spacings are known. -/
theorem round64_of_count (q : ℚ) (e : ℤ) (c : ℤ) (h1 : (2 : ℚ) ^ e ≤ |q|)
    (h2 : |q| < (2 : ℚ) ^ (e + 1)) (he : -1022 ≤ e)
    (hc : roundEven (q / (2 : ℚ) ^ (e - 52)) = c)
    (hb1 : (c : ℚ) * (2 : ℚ) ^ (e - 52) < (2 : ℚ) ^ (1024 : ℕ))
    (hb2 : -(2 : ℚ) ^ (1024 : ℕ) < (c : ℚ) * (2 : ℚ) ^ (e - 52)) :
    round64 q = fin ((c : ℚ) * (2 : ℚ) ^ (e - 52)) := by
  unfold round64 ulp
  rw [binade_eq q e h1 h2 he, hc, if_neg (not_le.mpr hb1), if_neg (not_le.mpr hb2)]

theorem round64_zero : round64 0 = fin 0 := by
  unfold round64
  have h : roundEven ((0 : ℚ) / ulp 0) = 0 := by
    rw [zero_div]
    exact_mod_cast roundEven_intCast 0
  rw [h]
  norm_num

/-- Integers of magnitude at most 2^53 are binary64 values: rounding leaves
them as they are. -/
theorem round64_intCast (n : ℤ) (hn : |n| ≤ 2 ^ 53) : round64 (n : ℚ) = fin (n : ℚ) := by
  by_cases h0 : n = 0
  · subst h0
    exact_mod_cast round64_zero
  have habs : (1 : ℚ) ≤ |(n : ℚ)| := by
    have : (1 : ℤ) ≤ |n| := Int.one_le_abs h0
    exact_mod_cast this
  have hpos : (0 : ℚ) < |(n : ℚ)| := lt_of_lt_of_le one_pos habs
  have hle : |(n : ℚ)| ≤ (2 : ℚ) ^ (53 : ℕ) := by exact_mod_cast hn
  have he0 : 0 ≤ Int.log 2 |(n : ℚ)| :=
    (Int.zpow_le_iff_le_log (b := 2) (by norm_num) hpos).mp (by simpa using habs)
  have he53 : Int.log 2 |(n : ℚ)| < 54 :=
    (Int.lt_zpow_iff_log_lt (b := 2) (by norm_num) hpos).mp (by
      have : ((2 : ℕ) : ℚ) ^ (54 : ℤ) = (2 : ℚ) ^ (54 : ℕ) := by norm_num
      rw [this]
      exact lt_of_le_of_lt hle (by norm_num))
  have hl1 := Int.zpow_log_le_self (b := 2) (by norm_num) hpos
  have hl2 := Int.lt_zpow_succ_log_self (b := 2) (by norm_num) |(n : ℚ)|
  obtain ⟨e, hee⟩ : ∃ e : ℤ, Int.log 2 |(n : ℚ)| = e := ⟨_, rfl⟩
  rw [hee] at he0 he53 hl1 hl2
  have hl1q : (2 : ℚ) ^ e ≤ |(n : ℚ)| := by exact_mod_cast hl1
  have hl2q : |(n : ℚ)| < (2 : ℚ) ^ (e + 1) := by exact_mod_cast hl2
  have hcount : ∃ c : ℤ, (n : ℚ) / (2 : ℚ) ^ (e - 52) = (c : ℚ) := by
    by_cases he : e ≤ 52
    · refine ⟨n * 2 ^ (52 - e).toNat, ?_⟩
      have h52 : ((52 - e).toNat : ℤ) = 52 - e := Int.toNat_of_nonneg (by omega)
      have : (2 : ℚ) ^ (e - 52) = ((2 : ℚ) ^ ((52 - e).toNat))⁻¹ := by
        rw [← zpow_natCast, h52, ← zpow_neg]
        congr 1
        ring
      rw [this]
      push_cast
      field_simp
    · have he53' : e = 53 := by omega
      subst he53'
      have hq : |(n : ℚ)| = (2 : ℚ) ^ (53 : ℕ) := by
        apply le_antisymm hle
        have : (2 : ℚ) ^ (53 : ℤ) = (2 : ℚ) ^ (53 : ℕ) := by norm_num
        rw [← this]
        exact hl1q
      rcases abs_eq (by positivity : (0 : ℚ) ≤ (2 : ℚ) ^ (53 : ℕ)) |>.mp hq with h | h
      · exact ⟨2 ^ 52, by rw [h]; norm_num⟩
      · exact ⟨-2 ^ 52, by rw [h]; norm_num⟩
  obtain ⟨c, hc⟩ := hcount
  have hval : (c : ℚ) * (2 : ℚ) ^ (e - 52) = (n : ℚ) := by
    rw [← hc]
    have : (2 : ℚ) ^ (e - 52) ≠ 0 := zpow_ne_zero _ (by norm_num)
    field_simp
  have hbig : (2 : ℚ) ^ (53 : ℕ) < (2 : ℚ) ^ (1024 : ℕ) := by
    apply pow_lt_pow_right₀ <;> norm_num
  have hab := abs_le.mp hle
  have := round64_of_count (n : ℚ) e c hl1q hl2q (by omega)
    (by rw [hc]; exact roundEven_intCast c)
    (by rw [hval]; linarith) (by rw [hval]; linarith)
  rw [this, hval]

theorem ofInt_eq (n : ℤ) (hn : |n| ≤ 2 ^ 53) : ofInt n = fin (n : ℚ) :=
  round64_intCast n hn

theorem add_intCast (a b : ℤ) (h : |a + b| ≤ 2 ^ 53) :
    add (fin (a : ℚ)) (fin (b : ℚ)) = fin ((a + b : ℤ) : ℚ) := by
  show round64 ((a : ℚ) + (b : ℚ)) = _
  rw [← Int.cast_add]
  exact round64_intCast _ h

theorem sub_intCast (a b : ℤ) (h : |a - b| ≤ 2 ^ 53) :
    sub (fin (a : ℚ)) (fin (b : ℚ)) = fin ((a - b : ℤ) : ℚ) := by
  show round64 ((a : ℚ) + -(b : ℚ)) = _
  rw [← sub_eq_add_neg, ← Int.cast_sub]
  exact round64_intCast _ h

theorem lt_fin (a b : ℚ) : lt (fin a) (fin b) = decide (a < b) := rfl

theorem gt_fin (a b : ℚ) : gt (fin a) (fin b) = decide (b < a) := rfl

theorem add_fin (a b : ℚ) : add (fin a) (fin b) = round64 (a + b) := rfl

theorem sub_fin (a b : ℚ) : sub (fin a) (fin b) = round64 (a - b) := by
  show round64 (a + -b) = _
  rw [sub_eq_add_neg]

theorem eq_of_ne_false (x y : F64) (h : ne x y = false) : x = y := by
  cases x <;> cases y <;> simp_all [ne]

theorem round64_ne_nan (q : ℚ) : round64 q ≠ nan := by
  unfold round64
  split_ifs <;> simp

theorem add_one_ne_nan (x : F64) (h : x ≠ nan) : add x (fin 1) ≠ nan := by
  cases x with
  | fin a => exact round64_ne_nan _
  | posInf => simp [add]
  | negInf => simp [add]
  | nan => exact absurd rfl h

theorem sub_one_ne_nan (x : F64) (h : x ≠ nan) : sub x (fin 1) ≠ nan := by
  cases x with
  | fin a => exact round64_ne_nan _
  | posInf => simp [sub, add, neg]
  | negInf => simp [sub, add, neg]
  | nan => exact absurd rfl h

theorem ofInt_fin (n : ℤ) (x : ℚ) (hx : x = (n : ℚ)) (hn : |n| ≤ 2 ^ 53) :
    ofInt n = fin x := by
  rw [hx]
  exact ofInt_eq n hn

theorem add_int (a b : ℤ) (x y z : ℚ) (hx : x = (a : ℚ)) (hy : y = (b : ℚ))
    (hz : z = (a : ℚ) + (b : ℚ)) (h : |a + b| ≤ 2 ^ 53) :
    add (fin x) (fin y) = fin z := by
  rw [hx, hy, hz, ← Int.cast_add]
  exact add_intCast a b h

theorem sub_int (a b : ℤ) (x y z : ℚ) (hx : x = (a : ℚ)) (hy : y = (b : ℚ))
    (hz : z = (a : ℚ) - (b : ℚ)) (h : |a - b| ≤ 2 ^ 53) :
    sub (fin x) (fin y) = fin z := by
  rw [hx, hy, hz, ← Int.cast_sub]
  exact sub_intCast a b h

/-- A value that is a whole number of spacings of its own binade is a binary64
value: rounding leaves it as it is. -/
theorem round64_of_exact (q : ℚ) (e : ℤ) (c : ℤ) (h1 : (2 : ℚ) ^ e ≤ |q|)
    (h2 : |q| < (2 : ℚ) ^ (e + 1)) (he : -1022 ≤ e)
    (hc : q = (c : ℚ) * (2 : ℚ) ^ (e - 52))
    (hb1 : q < (2 : ℚ) ^ (1024 : ℕ)) (hb2 : -(2 : ℚ) ^ (1024 : ℕ) < q) :
    round64 q = fin q := by
  have hne : (2 : ℚ) ^ (e - 52) ≠ 0 := zpow_ne_zero _ (by norm_num)
  have hcount : roundEven (q / (2 : ℚ) ^ (e - 52)) = c := by
    rw [hc, mul_div_assoc, div_self hne, mul_one]
    exact roundEven_intCast c
  have := round64_of_count q e c h1 h2 he hcount (by rw [← hc]; exact hb1)
    (by rw [← hc]; exact hb2)
  rw [this, ← hc]

end F64

/-! ## Rounding at the concrete inputs -/

theorem round64_f0_1_add_64 : F64.round64 (f0_1 + 64) = F64.fin f64_1 := by
  have hq : f0_1 + 64 = 2309445888915590349 / 2 ^ 55 := by norm_num [f0_1]
  have h := F64.round64_of_count (f0_1 + 64) 6 4510636501788262
    (by rw [hq, abs_of_pos (by norm_num)]; norm_num)
    (by rw [hq, abs_of_pos (by norm_num)]; norm_num)
    (by norm_num)
    (by
      apply F64.roundEven_of_near
      · rw [hq]; norm_num
      · rw [hq]; norm_num)
    (by norm_num) (by norm_num)
  rw [h]
  norm_num [f64_1]

theorem round64_f1_3_add_1 : F64.round64 (f1_3 + 1) = F64.fin f2_3 := by
  have hq : f1_3 + 1 = 10358279142952141 / 2 ^ 52 := by norm_num [f1_3]
  have h := F64.round64_of_count (f1_3 + 1) 1 5179139571476070
    (by rw [hq, abs_of_pos (by norm_num)]; norm_num)
    (by rw [hq, abs_of_pos (by norm_num)]; norm_num)
    (by norm_num)
    (by
      rw [F64.roundEven_of_tie _ 5179139571476070 (by rw [hq]; norm_num)]
      decide)
    (by norm_num) (by norm_num)
  rw [h]
  norm_num [f2_3]

theorem round64_f2_3_sub_1 : F64.round64 (f2_3 - 1) = F64.fin f1_3pred := by
  have hq : f2_3 - 1 = 1463669878895411 / 2 ^ 50 := by norm_num [f2_3]
  have h := F64.round64_of_count (f2_3 - 1) 0 5854679515581644
    (by rw [hq, abs_of_pos (by norm_num)]; norm_num)
    (by rw [hq, abs_of_pos (by norm_num)]; norm_num)
    (by norm_num)
    (by
      apply F64.roundEven_of_near
      · rw [hq]; norm_num
      · rw [hq]; norm_num)
    (by norm_num) (by norm_num)
  rw [h]
  norm_num [f1_3pred]

theorem round64_sliver_add : F64.round64 (1 / 2 ^ 60 + 640) = F64.fin 640 := by
  have h := F64.round64_of_count (1 / 2 ^ 60 + 640) 9 5629499534213120
    (by rw [abs_of_pos (by norm_num)]; norm_num)
    (by rw [abs_of_pos (by norm_num)]; norm_num)
    (by norm_num)
    (by
      apply F64.roundEven_of_near
      · norm_num
      · norm_num)
    (by norm_num) (by norm_num)
  rw [h]
  norm_num

theorem round64_sliver_sub : F64.round64 (1 / 2 ^ 60 - 12) = F64.fin (-12) := by
  have h := F64.round64_of_count (1 / 2 ^ 60 - 12) 3 (-6755399441055744)
    (by rw [abs_of_neg (by norm_num)]; norm_num)
    (by rw [abs_of_neg (by norm_num)]; norm_num)
    (by norm_num)
    (by
      apply F64.roundEven_of_near
      · norm_num
      · norm_num)
    (by norm_num) (by norm_num)
  rw [h]
  norm_num

theorem round64_deep_sub : F64.round64 (-(2 ^ 53) - 1) = F64.fin (-(2 ^ 53)) := by
  have h := F64.round64_of_count (-(2 ^ 53) - 1) 53 (-4503599627370496)
    (by rw [abs_of_neg (by norm_num)]; norm_num)
    (by rw [abs_of_neg (by norm_num)]; norm_num)
    (by norm_num)
    (by
      rw [F64.roundEven_of_tie _ (-4503599627370497) (by norm_num)]
      decide)
    (by norm_num) (by norm_num)
  rw [h]
  norm_num

theorem round64_f2_3_add_320 : F64.round64 (320 + f2_3) = F64.fin f322_3 := by
  have hq : 320 + f2_3 = 362877539975377715 / 2 ^ 50 := by norm_num [f2_3]
  have h := F64.round64_of_count (320 + f2_3) 8 5669961562115277
    (by rw [hq, abs_of_pos (by norm_num)]; norm_num)
    (by rw [hq, abs_of_pos (by norm_num)]; norm_num)
    (by norm_num)
    (by
      apply F64.roundEven_of_near
      · rw [hq]; norm_num
      · rw [hq]; norm_num)
    (by norm_num) (by norm_num)
  rw [h]
  norm_num [f322_3]

/-! ## The sample values are binary64 values -/

theorem round64_f0_1 : F64.round64 f0_1 = F64.fin f0_1 := by
  apply F64.round64_of_exact f0_1 (-4) 7205759403792794 <;>
    norm_num [f0_1, abs_of_pos]

theorem round64_f64_1 : F64.round64 f64_1 = F64.fin f64_1 := by
  apply F64.round64_of_exact f64_1 6 4510636501788262 <;>
    norm_num [f64_1, abs_of_pos]

theorem round64_f1_3 : F64.round64 f1_3 = F64.fin f1_3 := by
  apply F64.round64_of_exact f1_3 0 5854679515581645 <;>
    norm_num [f1_3, abs_of_pos]

theorem round64_sliver : F64.round64 (1 / 2 ^ 60) = F64.fin (1 / 2 ^ 60) := by
  apply F64.round64_of_exact (1 / 2 ^ 60) (-60) 4503599627370496 <;>
    norm_num [abs_of_pos]

theorem round64_deep : F64.round64 (-(2 ^ 53)) = F64.fin (-(2 ^ 53)) := by
  have h := F64.round64_intCast (-(2 ^ 53)) (by norm_num)
  norm_num at h
  exact h
/-! ## Field lemmas of the float64 embedding -/

theorem controlSpeed64_eq (k : Keys) (g : Game64) :
    controlSpeed64 k g =
      { g with player := { g.player with
          speed := specSpeed64 g.player.speed k.KeyS k.KeyD } } := by
  have key : ∀ s : F64,
      (if F64.ne s g.player.speed = true then
        ({ g with player := { g.player with speed := s } } : Game64) else g)
        = { g with player := { g.player with speed := s } } := by
    intro s
    split_ifs with hne
    · rfl
    · have := F64.eq_of_ne_false s g.player.speed (by simpa using hne)
      rw [this]
  unfold controlSpeed64 specSpeed64
  exact key _

theorem specSpeed64_nan (inc dec : Bool) : specSpeed64 F64.nan inc dec = F64.nan := by
  cases inc <;> cases dec <;> rfl

theorem specSpeed64_inSpeedRange (s : F64) (inc dec : Bool) (h : s ≠ F64.nan) :
    F64.inSpeedRange (specSpeed64 s inc dec) := by
  have h1 : (if inc = true then F64.add s (F64.fin 1) else s) ≠ F64.nan := by
    split_ifs
    · exact F64.add_one_ne_nan s h
    · exact h
  obtain ⟨s1, hs1⟩ : ∃ s1, (if inc = true then F64.add s (F64.fin 1) else s) = s1 :=
    ⟨_, rfl⟩
  have h2 : (if dec = true then F64.sub s1 (F64.fin 1) else s1) ≠ F64.nan := by
    split_ifs
    · exact F64.sub_one_ne_nan s1 (hs1 ▸ h1)
    · exact hs1 ▸ h1
  obtain ⟨s2, hs2⟩ : ∃ s2, (if dec = true then F64.sub s1 (F64.fin 1) else s1) = s2 :=
    ⟨_, rfl⟩
  have e : specSpeed64 s inc dec =
      (if F64.lt (if F64.gt s2 (F64.fin 20) = true then F64.fin 20 else s2) (F64.fin 1)
          = true then F64.fin 1
        else (if F64.gt s2 (F64.fin 20) = true then F64.fin 20 else s2)) := by
    unfold specSpeed64
    simp only [hs1, hs2]
  rw [e]
  rw [hs2] at h2
  cases s2 with
  | fin a =>
    by_cases h20 : (20 : ℚ) < a
    · have g1 : F64.gt (F64.fin a) (F64.fin 20) = true := by
        rw [F64.gt_fin]
        exact decide_eq_true h20
      have g2 : F64.lt (F64.fin 20) (F64.fin 1) = false := by
        rw [F64.lt_fin]
        exact decide_eq_false (by norm_num)
      simp only [g1, g2, if_true, Bool.false_eq_true, if_false]
      exact ⟨by norm_num, le_refl _⟩
    · have g1 : F64.gt (F64.fin a) (F64.fin 20) = false := by
        rw [F64.gt_fin]
        exact decide_eq_false h20
      simp only [g1, Bool.false_eq_true, if_false]
      by_cases h01 : a < 1
      · have g2 : F64.lt (F64.fin a) (F64.fin 1) = true := by
          rw [F64.lt_fin]
          exact decide_eq_true h01
        simp only [g2, if_true]
        exact ⟨le_refl _, by norm_num⟩
      · have g2 : F64.lt (F64.fin a) (F64.fin 1) = false := by
          rw [F64.lt_fin]
          exact decide_eq_false h01
        simp only [g2, Bool.false_eq_true, if_false]
        exact ⟨not_lt.mp h01, not_lt.mp h20⟩
  | posInf =>
    simp only [F64.gt, F64.lt, if_true, F64.lt_fin]
    norm_num [F64.inSpeedRange]
  | negInf =>
    simp only [F64.gt, F64.lt, Bool.false_eq_true, if_false, if_true]
    norm_num [F64.inSpeedRange]
  | nan => exact absurd rfl h2

theorem inSpeedRange_ne_nan (s : F64) (h : F64.inSpeedRange s) : s ≠ F64.nan := by
  intro e
  rw [e] at h
  exact h

theorem movePlayer64_of_guard (k : Keys) (g : Game64)
    (h : F64.gt (F64.add g.player.xPos (F64.ofInt g.player.image.Dx))
      (F64.ofInt g.background.Dx) = true) :
    movePlayer64 k g = g := by
  unfold movePlayer64
  rw [if_pos h]

theorem movePlayer64_mode (k : Keys) (g : Game64) :
    (movePlayer64 k g).mode = g.mode := by
  unfold movePlayer64
  simp only
  split_ifs <;> rfl

theorem movePlayer64_obstacle (k : Keys) (g : Game64) :
    (movePlayer64 k g).obstacle = g.obstacle := by
  unfold movePlayer64
  simp only
  split_ifs <;> rfl

theorem movePlayer64_background (k : Keys) (g : Game64) :
    (movePlayer64 k g).background = g.background := by
  unfold movePlayer64
  simp only
  split_ifs <;> rfl

theorem movePlayer64_image (k : Keys) (g : Game64) :
    (movePlayer64 k g).player.image = g.player.image := by
  unfold movePlayer64
  simp only
  split_ifs <;> rfl

theorem movePlayer64_speed (k : Keys) (g : Game64) :
    (movePlayer64 k g).player.speed = g.player.speed := by
  unfold movePlayer64
  simp only
  split_ifs <;> rfl

theorem movePlayer64_xPos (k : Keys) (g : Game64)
    (h : F64.gt (F64.add g.player.xPos (F64.ofInt g.player.image.Dx))
      (F64.ofInt g.background.Dx) = false) :
    (movePlayer64 k g).player.xPos =
      (if k.KeyRight then
        F64.add (if k.KeyLeft then F64.sub g.player.xPos g.player.speed
          else g.player.xPos) g.player.speed
      else if k.KeyLeft then F64.sub g.player.xPos g.player.speed
      else g.player.xPos) := by
  unfold movePlayer64
  rw [if_neg (by simp [h])]
  rcases k with ⟨u, d, l, r, ks, kd, sp⟩
  cases u <;> cases d <;> cases l <;> cases r <;> rfl

theorem movePlayer64_yPos (k : Keys) (g : Game64)
    (h : F64.gt (F64.add g.player.xPos (F64.ofInt g.player.image.Dx))
      (F64.ofInt g.background.Dx) = false) :
    (movePlayer64 k g).player.yPos =
      (if k.KeyDown then
        F64.add (if k.KeyUp then F64.sub g.player.yPos g.player.speed
          else g.player.yPos) g.player.speed
      else if k.KeyUp then F64.sub g.player.yPos g.player.speed
      else g.player.yPos) := by
  unfold movePlayer64
  rw [if_neg (by simp [h])]
  rcases k with ⟨u, d, l, r, ks, kd, sp⟩
  cases u <;> cases d <;> cases l <;> cases r <;> rfl

theorem Update64_GameMode (a : Assets) (k : Keys) (g : Game64)
    (hm : g.mode = GameMode) :
    Update64 a k g =
      if hit64 (movePlayer64 k (controlSpeed64 k g)) then
        { movePlayer64 k (controlSpeed64 k g) with mode := GameOverMode }
      else movePlayer64 k (controlSpeed64 k g) := by
  unfold Update64 UpdateObj64
  rw [hm]

theorem Update64_GameOverMode (a : Assets) (k : Keys) (g : Game64)
    (hm : g.mode = GameOverMode) : Update64 a k g = gameOverMenuControls64 k g := by
  unfold Update64 UpdateObj64
  rw [hm]

theorem Update64_NewGameMode (a : Assets) (k : Keys) (g : Game64)
    (hm : g.mode = NewGameMode) : Update64 a k g = g := by
  unfold Update64 UpdateObj64
  rw [hm]

theorem Update64_player_GameMode (a : Assets) (k : Keys) (g : Game64)
    (hm : g.mode = GameMode) :
    (Update64 a k g).player = (movePlayer64 k (controlSpeed64 k g)).player := by
  rw [Update64_GameMode a k g hm]
  split_ifs <;> rfl

theorem Update64_player_of_not_GameMode (a : Assets) (k : Keys) (g : Game64)
    (hm : g.mode ≠ GameMode) : (Update64 a k g).player = g.player := by
  cases hm2 : g.mode with
  | GameMode => exact absurd hm2 hm
  | GameOverMode =>
    rw [Update64_GameOverMode a k g hm2]
    unfold gameOverMenuControls64
    split_ifs <;> rfl
  | NewGameMode => rw [Update64_NewGameMode a k g hm2]

theorem Update64_background (a : Assets) (k : Keys) (g : Game64) :
    (Update64 a k g).background = g.background := by
  cases hm : g.mode with
  | GameMode =>
    have hb : (movePlayer64 k (controlSpeed64 k g)).background = g.background := by
      rw [movePlayer64_background, controlSpeed64_eq]
    rw [Update64_GameMode a k g hm]
    split_ifs <;> exact hb
  | GameOverMode =>
    rw [Update64_GameOverMode a k g hm]
    unfold gameOverMenuControls64
    split_ifs <;> rfl
  | NewGameMode => rw [Update64_NewGameMode a k g hm]

theorem Update64_speed_GameMode (a : Assets) (k : Keys) (g : Game64)
    (hm : g.mode = GameMode) :
    (Update64 a k g).player.speed = specSpeed64 g.player.speed k.KeyS k.KeyD := by
  rw [Update64_player_GameMode a k g hm, movePlayer64_speed, controlSpeed64_eq]

theorem run64_cons (a : Assets) (k : Keys) (ks : List Keys) (g : Game64) :
    run64 a (k :: ks) g = run64 a ks (Update64 a k g) := rfl

theorem ofInt_320 : F64.ofInt 320 = F64.fin 320 := by
  rw [F64.ofInt_eq 320 (by norm_num)]
  norm_num

theorem ofInt_240 : F64.ofInt 240 = F64.fin 240 := by
  rw [F64.ofInt_eq 240 (by norm_num)]
  norm_num

theorem ofInt_160 : F64.ofInt 160 = F64.fin 160 := by
  rw [F64.ofInt_eq 160 (by norm_num)]
  norm_num

theorem ofInt_120 : F64.ofInt 120 = F64.fin 120 := by
  rw [F64.ofInt_eq 120 (by norm_num)]
  norm_num

theorem NewGame64_eq (a : Assets) : NewGame64 a =
    { background := a.space, height := 480, width := 640, mode := GameMode,
      player := ⟨a.rocket, F64.fin 320, F64.fin 240, F64.fin 12, 0⟩,
      obstacle := ⟨a.rock, F64.fin 160, F64.fin 120⟩ } := by
  have h1 : Int.tdiv 640 2 = 320 := by decide
  have h2 : Int.tdiv 480 2 = 240 := by decide
  have h3 : Int.tdiv 640 4 = 160 := by decide
  have h4 : Int.tdiv 480 4 = 120 := by decide
  have e : NewGame64 a =
    { background := a.space, height := 480, width := 640, mode := GameMode,
      player := ⟨a.rocket, F64.ofInt (Int.tdiv 640 2), F64.ofInt (Int.tdiv 480 2), F64.fin 12, 0⟩,
      obstacle := ⟨a.rock, F64.ofInt (Int.tdiv 640 4), F64.ofInt (Int.tdiv 480 4)⟩ } := rfl
  rw [e, h1, h2, h3, h4, ofInt_320, ofInt_240, ofInt_160, ofInt_120]

theorem Update64_speed_inRange (a : Assets) (k : Keys) (g : Game64)
    (h : F64.inSpeedRange g.player.speed) :
    F64.inSpeedRange (Update64 a k g).player.speed := by
  by_cases hm : g.mode = GameMode
  · rw [Update64_speed_GameMode a k g hm]
    exact specSpeed64_inSpeedRange _ _ _ (inSpeedRange_ne_nan _ h)
  · rw [Update64_player_of_not_GameMode a k g hm]
    exact h

theorem run64_speed_inRange (a : Assets) (ks : List Keys) (g : Game64)
    (h : F64.inSpeedRange g.player.speed) :
    F64.inSpeedRange (run64 a ks g).player.speed := by
  induction ks generalizing g with
  | nil => exact h
  | cons k ks ih =>
    rw [run64_cons]
    exact ih _ (Update64_speed_inRange a k g h)

/-! ## Speed control in float64 -/

theorem controlSpeed64_mode (k : Keys) (g : Game64) :
    (controlSpeed64 k g).mode = g.mode := by
  rw [controlSpeed64_eq]

theorem controlSpeed64_obstacle (k : Keys) (g : Game64) :
    (controlSpeed64 k g).obstacle = g.obstacle := by
  rw [controlSpeed64_eq]

theorem controlSpeed64_background (k : Keys) (g : Game64) :
    (controlSpeed64 k g).background = g.background := by
  rw [controlSpeed64_eq]

theorem controlSpeed64_image (k : Keys) (g : Game64) :
    (controlSpeed64 k g).player.image = g.player.image := by
  rw [controlSpeed64_eq]

theorem controlSpeed64_xPos (k : Keys) (g : Game64) :
    (controlSpeed64 k g).player.xPos = g.player.xPos := by
  rw [controlSpeed64_eq]

theorem controlSpeed64_yPos (k : Keys) (g : Game64) :
    (controlSpeed64 k g).player.yPos = g.player.yPos := by
  rw [controlSpeed64_eq]

theorem controlSpeed64_angleRadians (k : Keys) (g : Game64) :
    (controlSpeed64 k g).player.angleRadians = g.player.angleRadians := by
  rw [controlSpeed64_eq]

theorem controlSpeed64_speed (k : Keys) (g : Game64) :
    (controlSpeed64 k g).player.speed = specSpeed64 g.player.speed k.KeyS k.KeyD := by
  rw [controlSpeed64_eq]

/-- The two clamps on a finite adjusted speed `a` give the exact clamp of `a`. -/
theorem specSpeed64_of_adjusted (s : F64) (inc dec : Bool) (a : ℚ)
    (h : (if dec = true then
        F64.sub (if inc = true then F64.add s (F64.fin 1) else s) (F64.fin 1)
      else (if inc = true then F64.add s (F64.fin 1) else s)) = F64.fin a) :
    specSpeed64 s inc dec = F64.fin (max 1 (min 20 a)) := by
  unfold specSpeed64
  simp only [h]
  by_cases h20 : (20 : ℚ) < a
  · have g1 : F64.gt (F64.fin a) (F64.fin 20) = true := by
      rw [F64.gt_fin]
      exact decide_eq_true h20
    have g2 : F64.lt (F64.fin 20) (F64.fin 1) = false := by
      rw [F64.lt_fin]
      exact decide_eq_false (by norm_num)
    simp only [g1, g2, if_true, Bool.false_eq_true, if_false]
    rw [min_eq_left (le_of_lt h20), max_eq_right (by norm_num)]
  · have g1 : F64.gt (F64.fin a) (F64.fin 20) = false := by
      rw [F64.gt_fin]
      exact decide_eq_false h20
    simp only [g1, Bool.false_eq_true, if_false]
    rw [min_eq_right (not_lt.mp h20)]
    by_cases h01 : a < 1
    · have g2 : F64.lt (F64.fin a) (F64.fin 1) = true := by
        rw [F64.lt_fin]
        exact decide_eq_true h01
      simp only [g2, if_true]
      rw [max_eq_left (le_of_lt h01)]
    · have g2 : F64.lt (F64.fin a) (F64.fin 1) = false := by
        rw [F64.lt_fin]
        exact decide_eq_false h01
      simp only [g2, Bool.false_eq_true, if_false]
      rw [max_eq_right (not_lt.mp h01)]

/-- On a whole-number speed between 1 and 20 no sum or difference is rounded:
the float64 rule gives the exact clamp. -/
theorem specSpeed64_intCast (n : ℤ) (h1 : 1 ≤ n) (h20 : n ≤ 20) (inc dec : Bool) :
    specSpeed64 (F64.fin (n : ℚ)) inc dec = F64.fin (specSpeed (n : ℚ) inc dec) := by
  have ea : F64.add (F64.fin (n : ℚ)) (F64.fin 1) = F64.fin ((n : ℚ) + 1) :=
    F64.add_int n 1 _ _ _ rfl (by norm_num) (by norm_num)
      (by rw [abs_le]; constructor <;> omega)
  have es : F64.sub (F64.fin (n : ℚ)) (F64.fin 1) = F64.fin ((n : ℚ) - 1) :=
    F64.sub_int n 1 _ _ _ rfl (by norm_num) (by norm_num)
      (by rw [abs_le]; constructor <;> omega)
  have eas : F64.sub (F64.fin ((n : ℚ) + 1)) (F64.fin 1) = F64.fin (n : ℚ) :=
    F64.sub_int (n + 1) 1 _ _ _ (by push_cast; rfl) (by norm_num) (by push_cast; ring)
      (by rw [abs_le]; constructor <;> omega)
  cases inc <;> cases dec
  · rw [specSpeed64_of_adjusted _ _ _ (n : ℚ) (by simp)]
    simp [specSpeed, held]
  · rw [specSpeed64_of_adjusted _ _ _ ((n : ℚ) - 1) (by simp [es])]
    simp [specSpeed, held]
  · rw [specSpeed64_of_adjusted _ _ _ ((n : ℚ) + 1) (by simp [ea])]
    simp [specSpeed, held]
  · rw [specSpeed64_of_adjusted _ _ _ (n : ℚ) (by simp [ea, eas])]
    simp [specSpeed, held]

theorem controlSpeed64_of_no_speed_key (k : Keys) (g : Game64) (n : ℤ)
    (hS : k.KeyS = false) (hD : k.KeyD = false) (hs : g.player.speed = F64.fin (n : ℚ))
    (h1 : 1 ≤ n) (h20 : n ≤ 20) : controlSpeed64 k g = g := by
  have hn1 : (1 : ℚ) ≤ (n : ℚ) := by exact_mod_cast h1
  have hn20 : (n : ℚ) ≤ 20 := by exact_mod_cast h20
  have e : specSpeed64 g.player.speed k.KeyS k.KeyD = g.player.speed := by
    rw [hS, hD, hs, specSpeed64_intCast n h1 h20]
    simp [specSpeed, held, hn1, hn20]
  rw [controlSpeed64_eq, e]

/-! ## Movement and collision in float64 -/

theorem movePlayer64_noKeys (g : Game64) : movePlayer64 noKeys g = g := by
  unfold movePlayer64
  simp [noKeys]

theorem movePlayer64_upKey (g : Game64)
    (h : F64.gt (F64.add g.player.xPos (F64.ofInt g.player.image.Dx))
      (F64.ofInt g.background.Dx) = false) :
    movePlayer64 upKey g = { g with player := { g.player with
      yPos := F64.sub g.player.yPos g.player.speed, angleRadians := 0 } } := by
  unfold movePlayer64
  rw [if_neg (by simp [h])]
  rfl

theorem movePlayer64_leftKey (g : Game64)
    (h : F64.gt (F64.add g.player.xPos (F64.ofInt g.player.image.Dx))
      (F64.ofInt g.background.Dx) = false) :
    movePlayer64 leftKey g = { g with player := { g.player with
      xPos := F64.sub g.player.xPos g.player.speed,
      angleRadians := 270 * mathPi / 180 } } := by
  unfold movePlayer64
  rw [if_neg (by simp [h])]
  rfl

theorem movePlayer64_rightKey (k : Keys) (g : Game64)
    (hk : k.KeyUp = false ∧ k.KeyDown = false ∧ k.KeyLeft = false ∧ k.KeyRight = true)
    (h : F64.gt (F64.add g.player.xPos (F64.ofInt g.player.image.Dx))
      (F64.ofInt g.background.Dx) = false) :
    movePlayer64 k g = { g with player := { g.player with
      xPos := F64.add g.player.xPos g.player.speed,
      angleRadians := 90 * mathPi / 180 } } := by
  unfold movePlayer64
  rw [if_neg (by simp [h])]
  simp [hk.1, hk.2.1, hk.2.2.1, hk.2.2.2]

theorem hit64_eq_true_iff (g : Game64) : hit64 g = true ↔
    (F64.gt g.player.xPos g.obstacle.xPos = true ∧
      F64.lt g.player.xPos
        (F64.add g.obstacle.xPos (F64.ofInt g.obstacle.image.Dx)) = true ∧
      F64.gt g.player.yPos g.obstacle.yPos = true ∧
      F64.lt g.player.yPos
        (F64.add g.obstacle.yPos (F64.ofInt g.obstacle.image.Dy)) = true) := by
  unfold hit64
  split_ifs with h
  · exact ⟨fun _ => h, fun _ => rfl⟩
  · exact ⟨fun hf => absurd hf (by simp), fun hc => absurd hc h⟩

theorem hit64_of_not_left_of_far_edge (g : Game64)
    (h : F64.lt g.player.xPos
      (F64.add g.obstacle.xPos (F64.ofInt g.obstacle.image.Dx)) = false) :
    hit64 g = false := by
  cases hh : hit64 g with
  | false => rfl
  | true =>
    have := ((hit64_eq_true_iff g).mp hh).2.1
    rw [h] at this
    exact absurd this (by simp)

/-- On whole-number positions and widths of magnitude at most 2^53 the guard of
`movePlayer` is the exact comparison. -/
theorem guard64_int (x Dx bg : ℤ) (hDx : |Dx| ≤ 2 ^ 53) (hbg : |bg| ≤ 2 ^ 53)
    (hs : |x + Dx| ≤ 2 ^ 53) :
    F64.gt (F64.add (F64.fin (x : ℚ)) (F64.ofInt Dx)) (F64.ofInt bg)
      = decide ((bg : ℚ) < (x : ℚ) + (Dx : ℚ)) := by
  rw [F64.ofInt_eq Dx hDx, F64.ofInt_eq bg hbg,
    F64.add_int x Dx _ _ _ rfl rfl rfl hs, F64.gt_fin]

/-- On whole-number positions and sizes of magnitude at most 2^53 the far-edge
test of `hit` is the exact comparison. -/
theorem farEdge64_int (p : ℚ) (o D : ℤ) (hD : |D| ≤ 2 ^ 53) (hs : |o + D| ≤ 2 ^ 53) :
    F64.lt (F64.fin p) (F64.add (F64.fin (o : ℚ)) (F64.ofInt D))
      = decide (p < (o : ℚ) + (D : ℚ)) := by
  rw [F64.ofInt_eq D hD, F64.add_int o D _ _ _ rfl rfl rfl hs, F64.lt_fin]

/-! ## Frames in float64 -/

theorem Update64_image (a : Assets) (k : Keys) (g : Game64) :
    (Update64 a k g).player.image = g.player.image := by
  by_cases hm : g.mode = GameMode
  · rw [Update64_player_GameMode a k g hm, movePlayer64_image, controlSpeed64_image]
  · rw [Update64_player_of_not_GameMode a k g hm]

theorem Update64_stuck (a : Assets) (k : Keys) (g : Game64)
    (h : F64.gt (F64.add g.player.xPos (F64.ofInt g.player.image.Dx))
      (F64.ofInt g.background.Dx) = true) :
    (Update64 a k g).player.xPos = g.player.xPos ∧
    (Update64 a k g).player.yPos = g.player.yPos ∧
    (Update64 a k g).player.angleRadians = g.player.angleRadians := by
  by_cases hm : g.mode = GameMode
  · have hg : F64.gt (F64.add (controlSpeed64 k g).player.xPos
          (F64.ofInt (controlSpeed64 k g).player.image.Dx))
        (F64.ofInt (controlSpeed64 k g).background.Dx) = true := by
      rw [controlSpeed64_xPos, controlSpeed64_image, controlSpeed64_background]
      exact h
    rw [Update64_player_GameMode a k g hm, movePlayer64_of_guard k _ hg]
    exact ⟨controlSpeed64_xPos k g, controlSpeed64_yPos k g,
      controlSpeed64_angleRadians k g⟩
  · rw [Update64_player_of_not_GameMode a k g hm]
    exact ⟨rfl, rfl, rfl⟩

theorem run64_stuck (a : Assets) (ks : List Keys) (g : Game64)
    (h : F64.gt (F64.add g.player.xPos (F64.ofInt g.player.image.Dx))
      (F64.ofInt g.background.Dx) = true) :
    (run64 a ks g).player.xPos = g.player.xPos ∧
    (run64 a ks g).player.yPos = g.player.yPos ∧
    (run64 a ks g).player.angleRadians = g.player.angleRadians ∧
    (run64 a ks g).player.image = g.player.image ∧
    (run64 a ks g).background = g.background := by
  induction ks generalizing g with
  | nil => exact ⟨rfl, rfl, rfl, rfl, rfl⟩
  | cons k ks ih =>
    rw [run64_cons]
    have h1 := Update64_stuck a k g h
    have h2 : F64.gt (F64.add (Update64 a k g).player.xPos
          (F64.ofInt (Update64 a k g).player.image.Dx))
        (F64.ofInt (Update64 a k g).background.Dx) = true := by
      rw [h1.1, Update64_image, Update64_background]
      exact h
    have h3 := ih (Update64 a k g) h2
    exact ⟨h3.1.trans h1.1, h3.2.1.trans h1.2.1, h3.2.2.1.trans h1.2.2,
      h3.2.2.2.1.trans (Update64_image a k g),
      h3.2.2.2.2.trans (Update64_background a k g)⟩
/-! ## Runs from the start state in float64 -/

theorem advanced64_zero (a : Assets) : advanced64 a 0 = NewGame64 a := by
  rw [NewGame64_eq]
  simp [advanced64]

theorem Update64_advanced (n : Nat) (hn : n ≤ 24) :
    Update64 sampleAssets rightKey (advanced64 sampleAssets n)
      = advanced64 sampleAssets (n + 1) := by
  have hn2 : (n : ℚ) ≤ 24 := by exact_mod_cast hn
  have hn0 : (0 : ℚ) ≤ (n : ℚ) := Nat.cast_nonneg n
  have hc : controlSpeed64 rightKey (advanced64 sampleAssets n)
      = advanced64 sampleAssets n :=
    controlSpeed64_of_no_speed_key _ _ 12 rfl rfl (by norm_num [advanced64])
      (by norm_num) (by norm_num)
  have hg : F64.gt (F64.add (advanced64 sampleAssets n).player.xPos
        (F64.ofInt (advanced64 sampleAssets n).player.image.Dx))
      (F64.ofInt (advanced64 sampleAssets n).background.Dx) = false := by
    have h := guard64_int (320 + 12 * (n : ℤ)) 32 640 (by norm_num) (by norm_num)
      (by rw [abs_le]; constructor <;> omega)
    push_cast at h
    show F64.gt (F64.add (F64.fin (320 + 12 * (n : ℚ))) (F64.ofInt 32)) (F64.ofInt 640)
      = false
    rw [h]
    exact decide_eq_false (by linarith)
  have hx : F64.add (F64.fin (320 + 12 * (n : ℚ))) (F64.fin 12)
      = F64.fin (320 + 12 * ((n + 1 : ℕ) : ℚ)) :=
    F64.add_int (320 + 12 * (n : ℤ)) 12 _ _ _ (by push_cast; rfl) (by norm_num)
      (by push_cast; ring) (by rw [abs_le]; constructor <;> omega)
  have hmv : movePlayer64 rightKey (advanced64 sampleAssets n)
      = advanced64 sampleAssets (n + 1) := by
    rw [movePlayer64_rightKey rightKey _ ⟨rfl, rfl, rfl, rfl⟩ hg]
    show ({ advanced64 sampleAssets n with player :=
      { (advanced64 sampleAssets n).player with
        xPos := F64.add (F64.fin (320 + 12 * (n : ℚ))) (F64.fin 12),
        angleRadians := 90 * mathPi / 180 } } : Game64) = _
    rw [hx]
    simp [advanced64]
  have hh : hit64 (advanced64 sampleAssets (n + 1)) = false := by
    apply hit64_of_not_left_of_far_edge
    have h := farEdge64_int (320 + 12 * ((n + 1 : ℕ) : ℚ)) 160 64 (by norm_num)
      (by norm_num)
    push_cast at h
    show F64.lt (F64.fin (320 + 12 * ((n + 1 : ℕ) : ℚ)))
      (F64.add (F64.fin 160) (F64.ofInt 64)) = false
    push_cast
    rw [h]
    exact decide_eq_false (by linarith)
  rw [Update64_GameMode _ _ _ rfl, hc, hmv, hh]
  rfl

theorem run64_advanced (n m : Nat) (h : n + m ≤ 25) :
    run64 sampleAssets (List.replicate m rightKey) (advanced64 sampleAssets n)
      = advanced64 sampleAssets (n + m) := by
  induction m generalizing n with
  | zero => rfl
  | succ m ih =>
    rw [List.replicate_succ, run64_cons, Update64_advanced n (by omega),
      ih (n + 1) (by omega)]
    congr 1
    omega

theorem atRightEdge64_eq : atRightEdge64 =
    { background := ⟨640, 480⟩, height := 480, width := 640, mode := GameMode,
      player := ⟨⟨32, 32⟩, F64.fin 608, F64.fin 240, F64.fin 12, 1 / 2⟩,
      obstacle := ⟨⟨64, 64⟩, F64.fin 160, F64.fin 120⟩ } := by
  have h := run64_advanced 0 24 (by norm_num)
  rw [advanced64_zero] at h
  unfold atRightEdge64
  rw [h]
  norm_num [advanced64, sampleAssets, mathPi]

theorem climbed64_zero (a : Assets) : climbed64 a 0 = NewGame64 a := by
  rw [NewGame64_eq]
  simp [climbed64]

theorem Update64_climbed (a : Assets) (n : Nat) (hn : n ≤ 1000)
    (hp : a.rocket.Dx ≤ a.space.Dx - 320) (hr : a.rock.Dx ≤ 160)
    (hb1 : |a.rocket.Dx| ≤ 2 ^ 52) (hb2 : |a.space.Dx| ≤ 2 ^ 52)
    (hb3 : |a.rock.Dx| ≤ 2 ^ 52) :
    Update64 a upKey (climbed64 a n) = climbed64 a (n + 1) := by
  have hc : controlSpeed64 upKey (climbed64 a n) = climbed64 a n :=
    controlSpeed64_of_no_speed_key _ _ 12 rfl rfl (by norm_num [climbed64])
      (by norm_num) (by norm_num)
  rw [abs_le] at hb1 hb2 hb3
  have hg : F64.gt (F64.add (climbed64 a n).player.xPos
        (F64.ofInt (climbed64 a n).player.image.Dx))
      (F64.ofInt (climbed64 a n).background.Dx) = false := by
    have h := guard64_int 320 a.rocket.Dx a.space.Dx
      (by rw [abs_le]; constructor <;> omega) (by rw [abs_le]; constructor <;> omega)
      (by rw [abs_le]; constructor <;> omega)
    push_cast at h
    show F64.gt (F64.add (F64.fin 320) (F64.ofInt a.rocket.Dx)) (F64.ofInt a.space.Dx)
      = false
    rw [h]
    have : (a.rocket.Dx : ℚ) ≤ (a.space.Dx : ℚ) - 320 := by exact_mod_cast hp
    exact decide_eq_false (by linarith)
  have hy : F64.sub (F64.fin (240 - 12 * (n : ℚ))) (F64.fin 12)
      = F64.fin (240 - 12 * ((n + 1 : ℕ) : ℚ)) :=
    F64.sub_int (240 - 12 * (n : ℤ)) 12 _ _ _ (by push_cast; rfl) (by norm_num)
      (by push_cast; ring) (by rw [abs_le]; constructor <;> omega)
  have hmv : movePlayer64 upKey (climbed64 a n) = climbed64 a (n + 1) := by
    rw [movePlayer64_upKey _ hg]
    show ({ climbed64 a n with player :=
      { (climbed64 a n).player with
        yPos := F64.sub (F64.fin (240 - 12 * (n : ℚ))) (F64.fin 12),
        angleRadians := 0 } } : Game64) = _
    rw [hy]
    rfl
  have hh : hit64 (climbed64 a (n + 1)) = false := by
    apply hit64_of_not_left_of_far_edge
    have h := farEdge64_int 320 160 a.rock.Dx
      (by rw [abs_le]; constructor <;> omega) (by rw [abs_le]; constructor <;> omega)
    push_cast at h
    show F64.lt (F64.fin 320) (F64.add (F64.fin 160) (F64.ofInt a.rock.Dx)) = false
    rw [h]
    have : (a.rock.Dx : ℚ) ≤ 160 := by exact_mod_cast hr
    exact decide_eq_false (by linarith)
  rw [Update64_GameMode _ _ _ rfl, hc, hmv, hh]
  rfl

theorem run64_climbed (a : Assets) (n m : Nat) (h : n + m ≤ 1000)
    (hp : a.rocket.Dx ≤ a.space.Dx - 320) (hr : a.rock.Dx ≤ 160)
    (hb1 : |a.rocket.Dx| ≤ 2 ^ 52) (hb2 : |a.space.Dx| ≤ 2 ^ 52)
    (hb3 : |a.rock.Dx| ≤ 2 ^ 52) :
    run64 a (List.replicate m upKey) (climbed64 a n) = climbed64 a (n + m) := by
  induction m generalizing n with
  | zero => rfl
  | succ m ih =>
    rw [List.replicate_succ, run64_cons,
      Update64_climbed a n (by omega) hp hr hb1 hb2 hb3, ih (n + 1) (by omega)]
    congr 1
    omega
/-! ## The sample states in float64 -/

theorem ofInt_32 : F64.ofInt 32 = F64.fin 32 :=
  F64.ofInt_fin 32 32 (by norm_num) (by norm_num)

theorem ofInt_64 : F64.ofInt 64 = F64.fin 64 :=
  F64.ofInt_fin 64 64 (by norm_num) (by norm_num)

theorem ofInt_640 : F64.ofInt 640 = F64.fin 640 :=
  F64.ofInt_fin 640 640 (by norm_num) (by norm_num)

theorem hit64_grazing : hit64 grazing = false := by
  apply hit64_of_not_left_of_far_edge
  show F64.lt (F64.fin f64_1) (F64.add (F64.fin f0_1) (F64.ofInt 64)) = false
  rw [ofInt_64, F64.add_fin, round64_f0_1_add_64, F64.lt_fin]
  exact decide_eq_false (lt_irrefl _)

theorem controlSpeed64_grazing : controlSpeed64 noKeys grazing = grazing :=
  controlSpeed64_of_no_speed_key _ _ 12 rfl rfl (by norm_num [grazing, sample64])
    (by norm_num) (by norm_num)

theorem guard64_sliver :
    F64.gt (F64.add sliver.player.xPos (F64.ofInt sliver.player.image.Dx))
      (F64.ofInt sliver.background.Dx) = false := by
  show F64.gt (F64.add (F64.fin (1 / 2 ^ 60)) (F64.ofInt 640)) (F64.ofInt 640) = false
  rw [ofInt_640, F64.add_fin, round64_sliver_add, F64.gt_fin]
  exact decide_eq_false (lt_irrefl _)

theorem movePlayer64_leftKey_sliver :
    (movePlayer64 leftKey sliver).player.xPos = F64.fin (-12) ∧
    (movePlayer64 leftKey sliver).player.yPos = F64.fin 240 ∧
    (movePlayer64 leftKey sliver).player.angleRadians = 270 * mathPi / 180 := by
  rw [movePlayer64_leftKey sliver guard64_sliver]
  refine ⟨?_, rfl, rfl⟩
  show F64.sub (F64.fin (1 / 2 ^ 60)) (F64.fin 12) = F64.fin (-12)
  rw [F64.sub_fin, round64_sliver_sub]

theorem controlSpeed64_sliver : controlSpeed64 leftKey sliver = sliver :=
  controlSpeed64_of_no_speed_key _ _ 12 rfl rfl (by norm_num [sliver, sample64])
    (by norm_num) (by norm_num)

theorem guard64_deep :
    F64.gt (F64.add deep.player.xPos (F64.ofInt deep.player.image.Dx))
      (F64.ofInt deep.background.Dx) = false := by
  have h := guard64_int 320 32 640 (by norm_num) (by norm_num) (by norm_num)
  norm_num at h
  exact h

theorem movePlayer64_upKey_deep :
    (movePlayer64 upKey deep).player.yPos = F64.fin (-(2 ^ 53)) := by
  rw [movePlayer64_upKey deep guard64_deep]
  show F64.sub (F64.fin (-(2 ^ 53))) (F64.fin 1) = F64.fin (-(2 ^ 53))
  rw [F64.sub_fin, round64_deep_sub]

theorem specSpeed64_fractional_up :
    specSpeed64 (F64.fin f1_3) true false = F64.fin f2_3 := by
  rw [specSpeed64_of_adjusted _ _ _ f2_3
    (by simp only [if_true, Bool.false_eq_true, if_false]
        rw [F64.add_fin, round64_f1_3_add_1])]
  norm_num [f2_3]

theorem specSpeed64_fractional_both :
    specSpeed64 (F64.fin f1_3) true true = F64.fin f1_3pred := by
  rw [specSpeed64_of_adjusted _ _ _ f1_3pred
    (by simp only [if_true]
        rw [F64.add_fin, round64_f1_3_add_1, F64.sub_fin, round64_f2_3_sub_1])]
  norm_num [f1_3pred]

theorem guard64_start (g : Game64) (hx : g.player.xPos = F64.fin 320)
    (hp : g.player.image.Dx ≤ g.background.Dx - 320)
    (hb1 : |g.player.image.Dx| ≤ 2 ^ 52) (hb2 : |g.background.Dx| ≤ 2 ^ 52) :
    F64.gt (F64.add g.player.xPos (F64.ofInt g.player.image.Dx))
      (F64.ofInt g.background.Dx) = false := by
  rw [abs_le] at hb1 hb2
  have h := guard64_int 320 g.player.image.Dx g.background.Dx
    (by rw [abs_le]; constructor <;> omega) (by rw [abs_le]; constructor <;> omega)
    (by rw [abs_le]; constructor <;> omega)
  push_cast at h
  rw [hx, h]
  have : (g.player.image.Dx : ℚ) ≤ (g.background.Dx : ℚ) - 320 := by exact_mod_cast hp
  exact decide_eq_false (by linarith)

theorem specSpeed_abs_sub_le (s : ℚ) (h1 : 1 ≤ s) (h20 : s ≤ 20) (inc dec : Bool) :
    |specSpeed s inc dec - s| ≤ 1 := by
  rw [abs_le]
  unfold specSpeed held
  cases inc <;> cases dec <;> simp only [Bool.false_eq_true, if_true, if_false] <;>
    constructor <;> simp only [max_def, min_def] <;> split_ifs <;> linarith

/-- The exact clamp of a whole-number speed is a whole number between 1 and
20. -/
theorem specSpeed_intCast (n : ℤ) (inc dec : Bool) :
    ∃ m : ℤ, 1 ≤ m ∧ m ≤ 20 ∧ specSpeed (n : ℚ) inc dec = (m : ℚ) := by
  refine ⟨max 1 (min 20 (n + (if inc then 1 else 0) - (if dec then 1 else 0))),
    le_max_left _ _, max_le (by norm_num) (min_le_left _ _), ?_⟩
  unfold specSpeed held
  cases inc <;> cases dec <;> push_cast <;> simp

theorem Update64_speed_intCast (a : Assets) (k : Keys) (g : Game64)
    (h : ∃ n : ℤ, 1 ≤ n ∧ n ≤ 20 ∧ g.player.speed = F64.fin (n : ℚ)) :
    ∃ n : ℤ, 1 ≤ n ∧ n ≤ 20 ∧ (Update64 a k g).player.speed = F64.fin (n : ℚ) := by
  obtain ⟨n, h1, h20, hs⟩ := h
  by_cases hm : g.mode = GameMode
  · obtain ⟨m, hm1, hm20, he⟩ := specSpeed_intCast n k.KeyS k.KeyD
    refine ⟨m, hm1, hm20, ?_⟩
    rw [Update64_speed_GameMode a k g hm, hs, specSpeed64_intCast n h1 h20, he]
  · rw [Update64_player_of_not_GameMode a k g hm]
    exact ⟨n, h1, h20, hs⟩

theorem run64_speed_intCast (a : Assets) (ks : List Keys) (g : Game64)
    (h : ∃ n : ℤ, 1 ≤ n ∧ n ≤ 20 ∧ g.player.speed = F64.fin (n : ℚ)) :
    ∃ n : ℤ, 1 ≤ n ∧ n ≤ 20 ∧ (run64 a ks g).player.speed = F64.fin (n : ℚ) := by
  induction ks generalizing g with
  | nil => exact h
  | cons k ks ih =>
    rw [run64_cons]
    exact ih _ (Update64_speed_intCast a k g h)

theorem atRightEdge64_advanced : atRightEdge64 = advanced64 sampleAssets 24 := by
  have h := run64_advanced 0 24 (by norm_num)
  rw [advanced64_zero] at h
  exact h

theorem Update64_atRightEdge64 :
    Update64 sampleAssets rightKey atRightEdge64 =
      { background := ⟨640, 480⟩, height := 480, width := 640, mode := GameMode,
        player := ⟨⟨32, 32⟩, F64.fin 620, F64.fin 240, F64.fin 12, 1 / 2⟩,
        obstacle := ⟨⟨64, 64⟩, F64.fin 160, F64.fin 120⟩ } := by
  rw [atRightEdge64_advanced, Update64_advanced 24 (le_refl 24)]
  norm_num [advanced64, sampleAssets, mathPi]

theorem specSpeed64_posInf (inc dec : Bool) :
    specSpeed64 F64.posInf inc dec = F64.fin 20 := by
  have g2 : F64.lt (F64.fin 20) (F64.fin 1) = false := by
    rw [F64.lt_fin]
    exact decide_eq_false (by norm_num)
  cases inc <;> cases dec <;>
    simp [specSpeed64, F64.add, F64.sub, F64.neg, F64.gt, F64.lt, g2]

theorem specSpeed64_negInf (inc dec : Bool) :
    specSpeed64 F64.negInf inc dec = F64.fin 1 := by
  cases inc <;> cases dec <;>
    simp [specSpeed64, F64.add, F64.sub, F64.neg, F64.gt, F64.lt]

theorem guard64_fractional :
    F64.gt (F64.add fractional.player.xPos (F64.ofInt fractional.player.image.Dx))
      (F64.ofInt fractional.background.Dx) = false := by
  have h := guard64_int 320 32 640 (by norm_num) (by norm_num) (by norm_num)
  norm_num at h
  exact h
/-! ## Modes, headings and the obstacle in float64

The results of the exact embedding on the mode transitions, the headings, the
start state and the obstacle hold in the float64 embedding as well: no sum or
comparison enters them. -/

theorem movePlayer64_angleRadians (k : Keys) (g : Game64)
    (h : F64.gt (F64.add g.player.xPos (F64.ofInt g.player.image.Dx))
      (F64.ofInt g.background.Dx) = false) :
    (movePlayer64 k g).player.angleRadians =
      if k.KeyRight then mathPi / 2
      else if k.KeyLeft then 3 * mathPi / 2
      else if k.KeyDown then mathPi
      else if k.KeyUp then 0
      else g.player.angleRadians := by
  unfold movePlayer64
  rw [if_neg (by simp [h])]
  rcases k with ⟨u, d, l, r, ks, kd, sp⟩
  cases u <;> cases d <;> cases l <;> cases r <;> norm_num [mathPi]

theorem movePlayer64_isCardinal (k : Keys) (g : Game64)
    (h : isCardinal g.player.angleRadians) :
    isCardinal (movePlayer64 k g).player.angleRadians := by
  cases hg : F64.gt (F64.add g.player.xPos (F64.ofInt g.player.image.Dx))
      (F64.ofInt g.background.Dx) with
  | true =>
    rw [movePlayer64_of_guard k g hg]
    exact h
  | false =>
    rw [movePlayer64_angleRadians k g hg]
    unfold isCardinal
    split_ifs
    · exact Or.inr (Or.inl rfl)
    · exact Or.inr (Or.inr (Or.inr rfl))
    · exact Or.inr (Or.inr (Or.inl rfl))
    · exact Or.inl rfl
    · exact h

theorem Update64_isCardinal (a : Assets) (k : Keys) (g : Game64)
    (h : isCardinal g.player.angleRadians) :
    isCardinal (Update64 a k g).player.angleRadians := by
  by_cases hm : g.mode = GameMode
  · rw [Update64_player_GameMode a k g hm]
    apply movePlayer64_isCardinal
    rw [controlSpeed64_angleRadians]
    exact h
  · rw [Update64_player_of_not_GameMode a k g hm]
    exact h

/-- In every float64 state reachable from `NewGame` the heading is one of the
four cardinal values. -/
theorem run64_isCardinal (a : Assets) (ks : List Keys) :
    isCardinal (run64 a ks (NewGame64 a)).player.angleRadians := by
  have key : ∀ (ks : List Keys) (g : Game64), isCardinal g.player.angleRadians →
      isCardinal (run64 a ks g).player.angleRadians := by
    intro ks
    induction ks with
    | nil => exact fun g h => h
    | cons k ks ih =>
      intro g h
      rw [run64_cons]
      exact ih _ (Update64_isCardinal a k g h)
  apply key
  rw [NewGame64_eq]
  exact Or.inl rfl

theorem movePlayer64_width_height (k : Keys) (g : Game64) :
    (movePlayer64 k g).width = g.width ∧ (movePlayer64 k g).height = g.height := by
  unfold movePlayer64
  simp only
  split_ifs <;> exact ⟨rfl, rfl⟩

theorem Update64_frame (a : Assets) (k : Keys) (g : Game64) :
    (Update64 a k g).obstacle = g.obstacle ∧ (Update64 a k g).width = g.width ∧
    (Update64 a k g).height = g.height := by
  cases hm : g.mode with
  | GameMode =>
    have ho : (movePlayer64 k (controlSpeed64 k g)).obstacle = g.obstacle := by
      rw [movePlayer64_obstacle, controlSpeed64_obstacle]
    have hw : (movePlayer64 k (controlSpeed64 k g)).width = g.width := by
      rw [(movePlayer64_width_height k _).1, controlSpeed64_eq]
    have hh : (movePlayer64 k (controlSpeed64 k g)).height = g.height := by
      rw [(movePlayer64_width_height k _).2, controlSpeed64_eq]
    rw [Update64_GameMode a k g hm]
    split_ifs <;> exact ⟨ho, hw, hh⟩
  | GameOverMode =>
    rw [Update64_GameOverMode a k g hm]
    unfold gameOverMenuControls64
    split_ifs <;> exact ⟨rfl, rfl, rfl⟩
  | NewGameMode =>
    rw [Update64_NewGameMode a k g hm]
    exact ⟨rfl, rfl, rfl⟩

/-- In every float64 state reachable from `NewGame` the obstacle is at its
constructed position (160, 120) and the screen is 640 by 480. -/
theorem run64_frame (a : Assets) (ks : List Keys) :
    (run64 a ks (NewGame64 a)).obstacle = ⟨a.rock, F64.fin 160, F64.fin 120⟩ ∧
    (run64 a ks (NewGame64 a)).width = 640 ∧
    (run64 a ks (NewGame64 a)).height = 480 := by
  have key : ∀ (ks : List Keys) (g : Game64),
      (run64 a ks g).obstacle = g.obstacle ∧ (run64 a ks g).width = g.width ∧
      (run64 a ks g).height = g.height := by
    intro ks
    induction ks with
    | nil => exact fun g => ⟨rfl, rfl, rfl⟩
    | cons k ks ih =>
      intro g
      rw [run64_cons]
      have h := Update64_frame a k g
      have h2 := ih (Update64 a k g)
      exact ⟨h2.1.trans h.1, h2.2.1.trans h.2.1, h2.2.2.trans h.2.2⟩
  have h := key ks (NewGame64 a)
  rw [h.1, h.2.1, h.2.2, NewGame64_eq]
  exact ⟨rfl, rfl, rfl⟩

/-- In float64 too, `Update` in `NewGameMode` returns the receiver unchanged
and binds the fresh Playing game only to the method's own variable. -/
theorem run64_of_NewGameMode (a : Assets) (ks : List Keys) (g : Game64)
    (hm : g.mode = NewGameMode) :
    run64 a ks g = g ∧
    ∀ k : Keys, (UpdateObj64 a k g).rebound = { NewGame64 a with mode := GameMode } := by
  constructor
  · induction ks with
    | nil => rfl
    | cons k ks ih => rw [run64_cons, Update64_NewGameMode a k g hm, ih]
  · intro k
    unfold UpdateObj64
    rw [hm]

/-- In float64 too, GameOver mode is left only by the Restart key, and then
for `NewGameMode`, with no other field changed. -/
theorem run64_GameOver (a : Assets) (g : Game64) (hm : g.mode = GameOverMode) :
    (∀ ks : List Keys, (∀ k ∈ ks, k.KeySpace = false) → run64 a ks g = g) ∧
    (∀ k : Keys, k.KeySpace = true →
      Update64 a k g = { g with mode := NewGameMode }) := by
  constructor
  · intro ks hk
    induction ks with
    | nil => rfl
    | cons k ks ih =>
      have h1 : Update64 a k g = g := by
        rw [Update64_GameOverMode a k g hm]
        unfold gameOverMenuControls64
        simp [hk k (List.mem_cons_self k ks)]
      rw [run64_cons, h1]
      exact ih (fun k' hk' => hk k' (List.mem_cons_of_mem k hk'))
  · intro k hk
    rw [Update64_GameOverMode a k g hm]
    unfold gameOverMenuControls64
    simp [hk]
/-! ## Claims in float64 -/

/-- C1, as stated, fails in float64: with the player at (64.1, 1) and a 64x64
obstacle at (0.1, 0), all binary64 values, the player point is strictly inside
the exact rectangle (0.1 < 64.1 < 0.1 + 64 and 0 < 1 < 64), but the program's
sum 0.1 + 64 rounds to 64.1 and `hit` returns false. -/
theorem hit_strictly_inside_counterexample :
    F64.round64 f0_1 = F64.fin f0_1 ∧ F64.round64 f64_1 = F64.fin f64_1 ∧
    grazing.player.xPos = F64.fin f64_1 ∧ grazing.player.yPos = F64.fin 1 ∧
    grazing.obstacle.xPos = F64.fin f0_1 ∧ grazing.obstacle.yPos = F64.fin 0 ∧
    grazing.obstacle.image.Dx = 64 ∧ grazing.obstacle.image.Dy = 64 ∧
    (f0_1 < f64_1 ∧ f64_1 < f0_1 + ((64 : ℤ) : ℚ) ∧
      (0 : ℚ) < 1 ∧ (1 : ℚ) < 0 + ((64 : ℤ) : ℚ)) ∧
    hit64 grazing = false := by
  refine ⟨round64_f0_1, round64_f64_1, rfl, rfl, rfl, rfl, rfl, rfl, ?_, hit64_grazing⟩
  norm_num [f0_1, f64_1]

/-- C1, amended: `hit` returns true exactly when the player point passes the
four strict float64 comparisons `px > ox`, `px < ox + w`, `py > oy`,
`py < oy + h`, where the sums `ox + w` and `oy + h` are rounded to binary64;
otherwise false. When the two sums are exact, in particular for whole-number
obstacle positions and sizes of magnitude at most 2^52, this is the exact
condition ox < px < ox + w and oy < py < oy + h. With the obstacle at (90,90)
and a 20x20 sprite, a player at (100,100) is hit and a player at (110,100) is
not. -/
theorem hit_iff_inside_rounded :
    (∀ g : Game64, hit64 g = true ↔
      (F64.gt g.player.xPos g.obstacle.xPos = true ∧
        F64.lt g.player.xPos
          (F64.add g.obstacle.xPos (F64.ofInt g.obstacle.image.Dx)) = true ∧
        F64.gt g.player.yPos g.obstacle.yPos = true ∧
        F64.lt g.player.yPos
          (F64.add g.obstacle.yPos (F64.ofInt g.obstacle.image.Dy)) = true)) ∧
    (∀ g : Game64, hit64 g = false ↔
      ¬ (F64.gt g.player.xPos g.obstacle.xPos = true ∧
        F64.lt g.player.xPos
          (F64.add g.obstacle.xPos (F64.ofInt g.obstacle.image.Dx)) = true ∧
        F64.gt g.player.yPos g.obstacle.yPos = true ∧
        F64.lt g.player.yPos
          (F64.add g.obstacle.yPos (F64.ofInt g.obstacle.image.Dy)) = true)) ∧
    (∀ (g : Game64) (px py ox oy : ℚ),
      g.player.xPos = F64.fin px → g.player.yPos = F64.fin py →
      g.obstacle.xPos = F64.fin ox → g.obstacle.yPos = F64.fin oy →
      F64.add (F64.fin ox) (F64.ofInt g.obstacle.image.Dx)
        = F64.fin (ox + (g.obstacle.image.Dx : ℚ)) →
      F64.add (F64.fin oy) (F64.ofInt g.obstacle.image.Dy)
        = F64.fin (oy + (g.obstacle.image.Dy : ℚ)) →
      (hit64 g = true ↔
        (ox < px ∧ px < ox + (g.obstacle.image.Dx : ℚ) ∧
          oy < py ∧ py < oy + (g.obstacle.image.Dy : ℚ)))) ∧
    (∀ (g : Game64) (px py : ℚ) (ox oy : ℤ),
      g.player.xPos = F64.fin px → g.player.yPos = F64.fin py →
      g.obstacle.xPos = F64.fin (ox : ℚ) → g.obstacle.yPos = F64.fin (oy : ℚ) →
      |ox| ≤ 2 ^ 52 → |oy| ≤ 2 ^ 52 →
      |g.obstacle.image.Dx| ≤ 2 ^ 52 → |g.obstacle.image.Dy| ≤ 2 ^ 52 →
      (hit64 g = true ↔
        ((ox : ℚ) < px ∧ px < (ox : ℚ) + (g.obstacle.image.Dx : ℚ) ∧
          (oy : ℚ) < py ∧ py < (oy : ℚ) + (g.obstacle.image.Dy : ℚ)))) ∧
    (∀ g : Game64, hit64 { g with
        player := { g.player with xPos := F64.fin 100, yPos := F64.fin 100 },
        obstacle := ⟨⟨20, 20⟩, F64.fin 90, F64.fin 90⟩ } = true) ∧
    (∀ g : Game64, hit64 { g with
        player := { g.player with xPos := F64.fin 110, yPos := F64.fin 100 },
        obstacle := ⟨⟨20, 20⟩, F64.fin 90, F64.fin 90⟩ } = false) := by
  have hexact : ∀ (g : Game64) (px py ox oy : ℚ),
      g.player.xPos = F64.fin px → g.player.yPos = F64.fin py →
      g.obstacle.xPos = F64.fin ox → g.obstacle.yPos = F64.fin oy →
      F64.add (F64.fin ox) (F64.ofInt g.obstacle.image.Dx)
        = F64.fin (ox + (g.obstacle.image.Dx : ℚ)) →
      F64.add (F64.fin oy) (F64.ofInt g.obstacle.image.Dy)
        = F64.fin (oy + (g.obstacle.image.Dy : ℚ)) →
      (hit64 g = true ↔
        (ox < px ∧ px < ox + (g.obstacle.image.Dx : ℚ) ∧
          oy < py ∧ py < oy + (g.obstacle.image.Dy : ℚ))) := by
    intro g px py ox oy hpx hpy hox hoy hsx hsy
    rw [hit64_eq_true_iff, hpx, hpy, hox, hoy, hsx, hsy]
    simp only [F64.gt_fin, F64.lt_fin, decide_eq_true_eq]
  have whole : ∀ (g : Game64) (px py : ℚ) (ox oy : ℤ),
      g.player.xPos = F64.fin px → g.player.yPos = F64.fin py →
      g.obstacle.xPos = F64.fin (ox : ℚ) → g.obstacle.yPos = F64.fin (oy : ℚ) →
      |ox| ≤ 2 ^ 52 → |oy| ≤ 2 ^ 52 →
      |g.obstacle.image.Dx| ≤ 2 ^ 52 → |g.obstacle.image.Dy| ≤ 2 ^ 52 →
      (hit64 g = true ↔
        ((ox : ℚ) < px ∧ px < (ox : ℚ) + (g.obstacle.image.Dx : ℚ) ∧
          (oy : ℚ) < py ∧ py < (oy : ℚ) + (g.obstacle.image.Dy : ℚ))) := by
    intro g px py ox oy hpx hpy hox hoy hbx hby hbw hbh
    rw [abs_le] at hbx hby hbw hbh
    apply hexact g px py _ _ hpx hpy hox hoy
    · rw [F64.ofInt_eq _ (by rw [abs_le]; constructor <;> omega)]
      exact F64.add_int ox g.obstacle.image.Dx _ _ _ rfl rfl rfl
        (by rw [abs_le]; constructor <;> omega)
    · rw [F64.ofInt_eq _ (by rw [abs_le]; constructor <;> omega)]
      exact F64.add_int oy g.obstacle.image.Dy _ _ _ rfl rfl rfl
        (by rw [abs_le]; constructor <;> omega)
  refine ⟨hit64_eq_true_iff, fun g => ?_, hexact, whole, fun g => ?_, fun g => ?_⟩
  · rw [← hit64_eq_true_iff]
    cases hit64 g <;> simp
  · apply (whole _ 100 100 90 90 rfl rfl (by norm_num) (by norm_num) (by norm_num)
      (by norm_num) (by norm_num) (by norm_num)).mpr
    norm_num
  · have h := (whole { g with
        player := { g.player with xPos := F64.fin 110, yPos := F64.fin 100 },
        obstacle := ⟨⟨20, 20⟩, F64.fin 90, F64.fin 90⟩ } 110 100 90 90 rfl rfl
      (by norm_num) (by norm_num) (by norm_num)
      (by norm_num) (by norm_num) (by norm_num))
    cases hh : hit64 { g with
        player := { g.player with xPos := F64.fin 110, yPos := F64.fin 100 },
        obstacle := ⟨⟨20, 20⟩, F64.fin 90, F64.fin 90⟩ } with
    | false => rfl
    | true =>
      have := h.mp hh
      norm_num at this

/-- C1 amended, evaluated on the sample state with the player at (100, 100)
and a 20x20 obstacle at (90, 90): all sizes are whole numbers, the point is
strictly inside, and `hit` is true. -/
theorem hit_iff_inside_rounded_witness :
    hit64 { sample64 (F64.fin 100) (F64.fin 100) (F64.fin 90) (F64.fin 90) with
      obstacle := ⟨⟨20, 20⟩, F64.fin 90, F64.fin 90⟩ } = true :=
  (hit_iff_inside_rounded.2.2.2.1
    { sample64 (F64.fin 100) (F64.fin 100) (F64.fin 90) (F64.fin 90) with
      obstacle := ⟨⟨20, 20⟩, F64.fin 90, F64.fin 90⟩ } 100 100 90 90 rfl rfl
    (by norm_num [sample64]) (by norm_num [sample64]) (by norm_num) (by norm_num)
    (by norm_num) (by norm_num)).mpr (by norm_num)

/-- C3: the right-edge invariant fails in the program. From the start state
with the sample images, 24 frames of Right reach, in Playing mode at speed 12,
x = 608 with the rocket's right edge exactly on the background's right edge
(608 + 32 = 640, the guard does not fire). One more frame of Right moves the
player to x = 620, right edge 652 > 640: the guard tests the position before
the move and nothing clamps the result. From then on the guard fires and x
stays 620 over every further sequence of frames. -/
theorem right_edge_overshoot :
    atRightEdge64.mode = GameMode ∧
    atRightEdge64.player.xPos = F64.fin 608 ∧
    atRightEdge64.player.speed = F64.fin 12 ∧
    atRightEdge64.player.image.Dx = 32 ∧ atRightEdge64.background.Dx = 640 ∧
    F64.add atRightEdge64.player.xPos (F64.ofInt atRightEdge64.player.image.Dx)
      = F64.fin 640 ∧
    F64.ofInt atRightEdge64.background.Dx = F64.fin 640 ∧
    F64.gt (F64.add atRightEdge64.player.xPos
        (F64.ofInt atRightEdge64.player.image.Dx))
      (F64.ofInt atRightEdge64.background.Dx) = false ∧
    (Update64 sampleAssets rightKey atRightEdge64).mode = GameMode ∧
    (Update64 sampleAssets rightKey atRightEdge64).player.xPos = F64.fin 620 ∧
    (Update64 sampleAssets rightKey atRightEdge64).player.image.Dx = 32 ∧
    (Update64 sampleAssets rightKey atRightEdge64).background.Dx = 640 ∧
    F64.add (Update64 sampleAssets rightKey atRightEdge64).player.xPos
        (F64.ofInt (Update64 sampleAssets rightKey atRightEdge64).player.image.Dx)
      = F64.fin 652 ∧
    F64.gt (F64.add (Update64 sampleAssets rightKey atRightEdge64).player.xPos
        (F64.ofInt (Update64 sampleAssets rightKey atRightEdge64).player.image.Dx))
      (F64.ofInt (Update64 sampleAssets rightKey atRightEdge64).background.Dx)
      = true ∧
    (∀ ks : List Keys,
      (run64 sampleAssets ks
        (Update64 sampleAssets rightKey atRightEdge64)).player.xPos = F64.fin 620) := by
  have e640 : F64.add (F64.fin 608) (F64.fin 32) = F64.fin 640 :=
    F64.add_int 608 32 _ _ _ (by norm_num) (by norm_num) (by norm_num) (by norm_num)
  have e652 : F64.add (F64.fin 620) (F64.fin 32) = F64.fin 652 :=
    F64.add_int 620 32 _ _ _ (by norm_num) (by norm_num) (by norm_num) (by norm_num)
  have hg : F64.gt (F64.add (Update64 sampleAssets rightKey atRightEdge64).player.xPos
        (F64.ofInt (Update64 sampleAssets rightKey atRightEdge64).player.image.Dx))
      (F64.ofInt (Update64 sampleAssets rightKey atRightEdge64).background.Dx)
      = true := by
    rw [Update64_atRightEdge64]
    simp only [ofInt_32, ofInt_640, e652, F64.gt_fin]
    exact decide_eq_true (by norm_num)
  refine ⟨?_, ?_, ?_, ?_, ?_, ?_, ?_, ?_, ?_, ?_, ?_, ?_, ?_, hg, fun ks => ?_⟩
  · rw [atRightEdge64_eq]
  · rw [atRightEdge64_eq]
  · rw [atRightEdge64_eq]
  · rw [atRightEdge64_eq]
  · rw [atRightEdge64_eq]
  · rw [atRightEdge64_eq]
    simp only [ofInt_32, e640]
  · rw [atRightEdge64_eq]
    exact ofInt_640
  · rw [atRightEdge64_eq]
    simp only [ofInt_32, ofInt_640, e640, F64.gt_fin]
    exact decide_eq_false (lt_irrefl _)
  · rw [Update64_atRightEdge64]
  · rw [Update64_atRightEdge64]
  · rw [Update64_atRightEdge64]
  · rw [Update64_atRightEdge64]
  · rw [Update64_atRightEdge64]
    simp only [ofInt_32, e652]
  · rw [(run64_stuck sampleAssets ks _ hg).1, Update64_atRightEdge64]

/-- C4, as stated, fails in float64: a NaN speed passes both clamps (every
comparison with NaN is false) and is stored back, so from the Playing state
`nanSpeed` the speed after `controlSpeed`, and after `Update`, is NaN for every
key state, which is not in [1, 20]. -/
theorem speed_range_counterexample :
    nanSpeed.mode = GameMode ∧ nanSpeed.player.speed = F64.nan ∧
    (∀ k : Keys, (controlSpeed64 k nanSpeed).player.speed = F64.nan) ∧
    (∀ (a : Assets) (k : Keys), (Update64 a k nanSpeed).player.speed = F64.nan) ∧
    (∀ k : Keys, ¬ F64.inSpeedRange (controlSpeed64 k nanSpeed).player.speed) := by
  have h : ∀ k : Keys, (controlSpeed64 k nanSpeed).player.speed = F64.nan := by
    intro k
    rw [controlSpeed64_speed]
    exact specSpeed64_nan _ _
  refine ⟨rfl, rfl, h, fun a k => ?_, fun k => ?_⟩
  · rw [Update64_speed_GameMode a k nanSpeed rfl]
    exact specSpeed64_nan _ _
  · rw [h k]
    exact fun hf => hf

/-- C4, amended: for every starting speed other than NaN (the infinities
included) and every key state, the speed after `controlSpeed`, and after every
Playing-mode `Update`, is a finite value in [1, 20]; an infinite speed is
clamped to 20 or 1; once in [1, 20] the speed stays there over every sequence
of frames in every mode; and every state reachable from `NewGame` (speed 12)
has its speed in [1, 20]. A NaN speed stays NaN. -/
theorem speed_range_invariant64 :
    (∀ (k : Keys) (g : Game64), g.player.speed ≠ F64.nan →
      F64.inSpeedRange (controlSpeed64 k g).player.speed) ∧
    (∀ (a : Assets) (k : Keys) (g : Game64), g.mode = GameMode →
      g.player.speed ≠ F64.nan → F64.inSpeedRange (Update64 a k g).player.speed) ∧
    (∀ (a : Assets) (k : Keys) (ks : List Keys) (g : Game64), g.mode = GameMode →
      g.player.speed ≠ F64.nan →
      F64.inSpeedRange (run64 a (k :: ks) g).player.speed) ∧
    (∀ (k : Keys) (g : Game64),
      (g.player.speed = F64.posInf →
        (controlSpeed64 k g).player.speed = F64.fin 20) ∧
      (g.player.speed = F64.negInf →
        (controlSpeed64 k g).player.speed = F64.fin 1)) ∧
    (∀ (a : Assets) (ks : List Keys) (g : Game64),
      F64.inSpeedRange g.player.speed →
      F64.inSpeedRange (run64 a ks g).player.speed) ∧
    (∀ (a : Assets) (ks : List Keys),
      F64.inSpeedRange (run64 a ks (NewGame64 a)).player.speed) ∧
    (∀ (k : Keys) (g : Game64), g.player.speed = F64.nan →
      (controlSpeed64 k g).player.speed = F64.nan) := by
  refine ⟨fun k g h => ?_, fun a k g hm h => ?_, fun a k ks g hm h => ?_,
    fun k g => ⟨fun h => ?_, fun h => ?_⟩, run64_speed_inRange, fun a ks => ?_,
    fun k g h => ?_⟩
  · rw [controlSpeed64_speed]
    exact specSpeed64_inSpeedRange _ _ _ h
  · rw [Update64_speed_GameMode a k g hm]
    exact specSpeed64_inSpeedRange _ _ _ h
  · rw [run64_cons]
    apply run64_speed_inRange
    rw [Update64_speed_GameMode a k g hm]
    exact specSpeed64_inSpeedRange _ _ _ h
  · rw [controlSpeed64_speed, h]
    exact specSpeed64_posInf _ _
  · rw [controlSpeed64_speed, h]
    exact specSpeed64_negInf _ _
  · apply run64_speed_inRange
    rw [NewGame64_eq]
    exact ⟨by norm_num, by norm_num⟩
  · rw [controlSpeed64_speed, h]
    exact specSpeed64_nan _ _

/-- C4 amended, evaluated at the top speed 20 with IncreaseSpeed held: the
adjusted speed 21 is clamped back, and the speed after `controlSpeed` is 20,
in range. -/
theorem speed_range_invariant64_witness :
    topSpeed.player.speed ≠ F64.nan ∧
    F64.inSpeedRange (controlSpeed64 speedUpKey topSpeed).player.speed ∧
    F64.add topSpeed.player.speed (F64.fin 1) = F64.fin 21 ∧
    (controlSpeed64 speedUpKey topSpeed).player.speed = F64.fin 20 := by
  have hn : topSpeed.player.speed ≠ F64.nan := by
    simp [topSpeed]
  refine ⟨hn, speed_range_invariant64.1 speedUpKey topSpeed hn, ?_, ?_⟩
  · exact F64.add_int 20 1 _ _ _ (by norm_num) (by norm_num) (by norm_num)
      (by norm_num)
  · rw [controlSpeed64_speed]
    have h := specSpeed64_intCast 20 (by norm_num) (by norm_num) true false
    norm_num [specSpeed, held] at h
    exact h

/-- C5, as stated, fails in float64: in the Playing state `grazing` with no
key held the position after the movement step is still (64.1, 1), strictly
inside the exact rectangle of the 64x64 obstacle at (0.1, 0), yet `hit` is
false on it (0.1 + 64 rounds to 64.1) and the mode after `Update` stays
Playing. -/
theorem collision_transition_counterexample :
    grazing.mode = GameMode ∧
    movePlayer64 noKeys (controlSpeed64 noKeys grazing) = grazing ∧
    grazing.player.xPos = F64.fin f64_1 ∧ grazing.player.yPos = F64.fin 1 ∧
    grazing.obstacle.xPos = F64.fin f0_1 ∧ grazing.obstacle.yPos = F64.fin 0 ∧
    grazing.obstacle.image.Dx = 64 ∧ grazing.obstacle.image.Dy = 64 ∧
    (f0_1 < f64_1 ∧ f64_1 < f0_1 + ((64 : ℤ) : ℚ) ∧
      (0 : ℚ) < 1 ∧ (1 : ℚ) < 0 + ((64 : ℤ) : ℚ)) ∧
    (Update64 sampleAssets noKeys grazing).mode = GameMode ∧
    (Update64 sampleAssets noKeys grazing).mode ≠ GameOverMode := by
  have hmv : movePlayer64 noKeys (controlSpeed64 noKeys grazing) = grazing := by
    rw [controlSpeed64_grazing, movePlayer64_noKeys]
  have hu : (Update64 sampleAssets noKeys grazing).mode = GameMode := by
    rw [Update64_GameMode _ _ _ rfl, hmv, hit64_grazing]
    rfl
  refine ⟨rfl, hmv, rfl, rfl, rfl, rfl, rfl, rfl, ?_, hu, ?_⟩
  · norm_num [f0_1, f64_1]
  · rw [hu]
    decide

/-- C5, amended: in Playing mode, the mode after `Update` is GameOver exactly
when `hit` is true on the state after the frame's speed adjustment and
movement, that is, when the moved position passes the four strict float64
comparisons against the obstacle rectangle, whose far edges are the sums
`ox + w` and `oy + h` rounded to binary64; otherwise the mode stays Playing.
It is never Restarting. -/
theorem collision_transition64 (a : Assets) (k : Keys) (g : Game64)
    (hm : g.mode = GameMode) :
    ((Update64 a k g).mode = GameOverMode ↔
      hit64 (movePlayer64 k (controlSpeed64 k g)) = true) ∧
    ((Update64 a k g).mode = GameOverMode ↔
      (F64.gt (movePlayer64 k (controlSpeed64 k g)).player.xPos g.obstacle.xPos
          = true ∧
        F64.lt (movePlayer64 k (controlSpeed64 k g)).player.xPos
          (F64.add g.obstacle.xPos (F64.ofInt g.obstacle.image.Dx)) = true ∧
        F64.gt (movePlayer64 k (controlSpeed64 k g)).player.yPos g.obstacle.yPos
          = true ∧
        F64.lt (movePlayer64 k (controlSpeed64 k g)).player.yPos
          (F64.add g.obstacle.yPos (F64.ofInt g.obstacle.image.Dy)) = true)) ∧
    (hit64 (movePlayer64 k (controlSpeed64 k g)) = false →
      (Update64 a k g).mode = GameMode) ∧
    (Update64 a k g).mode ≠ NewGameMode := by
  have hmode : (movePlayer64 k (controlSpeed64 k g)).mode = GameMode := by
    rw [movePlayer64_mode, controlSpeed64_mode, hm]
  have hobs : (movePlayer64 k (controlSpeed64 k g)).obstacle = g.obstacle := by
    rw [movePlayer64_obstacle, controlSpeed64_obstacle]
  have key : (Update64 a k g).mode = GameOverMode ↔
      hit64 (movePlayer64 k (controlSpeed64 k g)) = true := by
    rw [Update64_GameMode a k g hm]
    split_ifs with h
    · simp [h]
    · simp [h, hmode]
  refine ⟨key, ?_, ?_, ?_⟩
  · rw [key, hit64_eq_true_iff, hobs]
  · intro h
    rw [Update64_GameMode a k g hm, h]
    simpa using hmode
  · rw [Update64_GameMode a k g hm]
    split_ifs with h
    · simp
    · simp [hmode]

/-- C5 amended, evaluated one Left step away from the inside of the rock: the
player moves from (230, 130) to (218, 130), inside the 64x64 rock at
(160, 120), and the frame ends in GameOver. -/
theorem collision_transition64_witness :
    nearRock64.mode = GameMode ∧
    (movePlayer64 leftKey (controlSpeed64 leftKey nearRock64)).player.xPos
      = F64.fin 218 ∧
    (Update64 sampleAssets leftKey nearRock64).mode = GameOverMode := by
  have hc : controlSpeed64 leftKey nearRock64 = nearRock64 :=
    controlSpeed64_of_no_speed_key _ _ 12 rfl rfl (by norm_num [nearRock64, sample64])
      (by norm_num) (by norm_num)
  have hg : F64.gt (F64.add nearRock64.player.xPos
        (F64.ofInt nearRock64.player.image.Dx))
      (F64.ofInt nearRock64.background.Dx) = false := by
    have h := guard64_int 230 32 640 (by norm_num) (by norm_num) (by norm_num)
    norm_num at h
    exact h
  have hx : F64.sub (F64.fin 230) (F64.fin 12) = F64.fin 218 :=
    F64.sub_int 230 12 _ _ _ (by norm_num) (by norm_num) (by norm_num) (by norm_num)
  have hmv : (movePlayer64 leftKey (controlSpeed64 leftKey nearRock64)).player.xPos
      = F64.fin 218 := by
    rw [hc, movePlayer64_leftKey _ hg]
    exact hx
  have hy : (movePlayer64 leftKey (controlSpeed64 leftKey nearRock64)).player.yPos
      = F64.fin 130 := by
    rw [hc, movePlayer64_leftKey _ hg]
    rfl
  refine ⟨rfl, hmv, (collision_transition64 sampleAssets leftKey nearRock64 rfl).2.1.mpr ?_⟩
  rw [hmv, hy]
  have e1 : F64.add nearRock64.obstacle.xPos (F64.ofInt nearRock64.obstacle.image.Dx)
      = F64.fin 224 := by
    show F64.add (F64.fin 160) (F64.ofInt 64) = F64.fin 224
    rw [ofInt_64]
    exact F64.add_int 160 64 _ _ _ (by norm_num) (by norm_num) (by norm_num)
      (by norm_num)
  have e2 : F64.add nearRock64.obstacle.yPos (F64.ofInt nearRock64.obstacle.image.Dy)
      = F64.fin 184 := by
    show F64.add (F64.fin 120) (F64.ofInt 64) = F64.fin 184
    rw [ofInt_64]
    exact F64.add_int 120 64 _ _ _ (by norm_num) (by norm_num) (by norm_num)
      (by norm_num)
  rw [e1, e2]
  show F64.gt (F64.fin 218) (F64.fin 160) = true ∧
    F64.lt (F64.fin 218) (F64.fin 224) = true ∧
    F64.gt (F64.fin 130) (F64.fin 120) = true ∧
    F64.lt (F64.fin 130) (F64.fin 184) = true
  simp only [F64.gt_fin, F64.lt_fin, decide_eq_true_eq]
  norm_num

/-- C6, as stated, fails in float64: in the state `sliver` the player is at
x = 2^-60 with a rocket as wide as the 640 background, so exactly
`x + sprite width > background width`; but the program's sum 2^-60 + 640 rounds
to 640, the guard does not fire, and `movePlayer` with Left held moves x to
-12 and turns the heading to 270 degrees. -/
theorem boundary_guard_counterexample :
    F64.round64 (1 / 2 ^ 60) = F64.fin (1 / 2 ^ 60) ∧
    sliver.player.xPos = F64.fin (1 / 2 ^ 60) ∧
    sliver.player.image.Dx = 640 ∧ sliver.background.Dx = 640 ∧
    sliver.player.angleRadians = 0 ∧
    ((1 / 2 ^ 60 : ℚ) + ((640 : ℤ) : ℚ) > ((640 : ℤ) : ℚ)) ∧
    (movePlayer64 leftKey sliver).player.xPos = F64.fin (-12) ∧
    (movePlayer64 leftKey sliver).player.xPos ≠ sliver.player.xPos ∧
    (movePlayer64 leftKey sliver).player.angleRadians = 270 * mathPi / 180 ∧
    (movePlayer64 leftKey sliver).player.angleRadians
      ≠ sliver.player.angleRadians := by
  have h := movePlayer64_leftKey_sliver
  refine ⟨round64_sliver, rfl, rfl, rfl, rfl, by norm_num, h.1, ?_, h.2.2, ?_⟩
  · rw [h.1]
    show F64.fin (-12) ≠ F64.fin (1 / 2 ^ 60)
    intro e
    injection e with e
    norm_num at e
  · rw [h.2.2]
    show 270 * mathPi / 180 ≠ (0 : ℚ)
    norm_num [mathPi]

/-- C6, amended: when the guard as the program evaluates it fires, that is,
when the binary64 sum `player.x + float64(sprite width)` compares greater than
`float64(background width)`, `movePlayer` leaves the whole state, and so the
player position and heading, unchanged for every combination of held keys, in
particular with all four directional keys held. For a whole-number x and
widths, of magnitude at most 2^52, the guard fires exactly when
`x + sprite width > background width`. -/
theorem boundary_guard_freezes64 :
    (∀ g : Game64,
      F64.gt (F64.add g.player.xPos (F64.ofInt g.player.image.Dx))
        (F64.ofInt g.background.Dx) = true →
      (∀ k : Keys, (movePlayer64 k g).player.xPos = g.player.xPos ∧
        (movePlayer64 k g).player.yPos = g.player.yPos ∧
        (movePlayer64 k g).player.angleRadians = g.player.angleRadians) ∧
      (∀ s d sp : Bool, movePlayer64 ⟨true, true, true, true, s, d, sp⟩ g = g)) ∧
    (∀ (g : Game64) (x : ℤ), g.player.xPos = F64.fin (x : ℚ) →
      |x| ≤ 2 ^ 52 → |g.player.image.Dx| ≤ 2 ^ 52 → |g.background.Dx| ≤ 2 ^ 52 →
      (F64.gt (F64.add g.player.xPos (F64.ofInt g.player.image.Dx))
          (F64.ofInt g.background.Dx) = true ↔
        (x : ℚ) + (g.player.image.Dx : ℚ) > (g.background.Dx : ℚ))) := by
  refine ⟨fun g h => ⟨fun k => ?_, fun s d sp => movePlayer64_of_guard _ g h⟩,
    fun g x hx hb1 hb2 hb3 => ?_⟩
  · rw [movePlayer64_of_guard k g h]
    exact ⟨rfl, rfl, rfl⟩
  · rw [abs_le] at hb1 hb2 hb3
    rw [hx, guard64_int x _ _ (by rw [abs_le]; constructor <;> omega)
      (by rw [abs_le]; constructor <;> omega) (by rw [abs_le]; constructor <;> omega)]
    simp only [decide_eq_true_eq, gt_iff_lt]

/-- C6 amended, evaluated on a state whose rocket overlaps the right edge
(620 + 32 > 640), with all four directional keys held: the player stays at
(620, 240) with heading 0. -/
theorem boundary_guard_freezes64_witness :
    F64.gt (F64.add pastRightEdge64.player.xPos
        (F64.ofInt pastRightEdge64.player.image.Dx))
      (F64.ofInt pastRightEdge64.background.Dx) = true ∧
    (movePlayer64 allArrowKeys pastRightEdge64).player.xPos = F64.fin 620 ∧
    (movePlayer64 allArrowKeys pastRightEdge64).player.yPos = F64.fin 240 ∧
    (movePlayer64 allArrowKeys pastRightEdge64).player.angleRadians = 0 := by
  have hg : F64.gt (F64.add pastRightEdge64.player.xPos
        (F64.ofInt pastRightEdge64.player.image.Dx))
      (F64.ofInt pastRightEdge64.background.Dx) = true := by
    have h := guard64_int 620 32 640 (by norm_num) (by norm_num) (by norm_num)
    norm_num at h
    exact h
  have h := (boundary_guard_freezes64.1 pastRightEdge64 hg).1 allArrowKeys
  exact ⟨hg, h.1, h.2.1, h.2.2⟩

/-- C11, as stated, fails in float64: at the binary64 speed 1.3, in [1, 20],
holding both speed keys does not leave the speed unchanged: 1.3 + 1 rounds to
2.3 and 2.3 - 1 is the value just below 1.3, which `controlSpeed` stores; and
holding only IncreaseSpeed stores the rounded 2.3, not the exact sum
clamp(1.3 + 1, 1, 20). -/
theorem controlSpeed_clamp_counterexample :
    F64.round64 f1_3 = F64.fin f1_3 ∧
    fractional.player.speed = F64.fin f1_3 ∧ 1 ≤ f1_3 ∧ f1_3 ≤ 20 ∧
    (controlSpeed64 bothSpeedKeys fractional).player.speed = F64.fin f1_3pred ∧
    (controlSpeed64 bothSpeedKeys fractional).player.speed
      ≠ fractional.player.speed ∧
    specSpeed f1_3 true true = f1_3 ∧ f1_3pred ≠ f1_3 ∧
    (controlSpeed64 speedUpKey fractional).player.speed = F64.fin f2_3 ∧
    specSpeed f1_3 true false = f1_3 + 1 ∧ f2_3 ≠ f1_3 + 1 := by
  have hb : (controlSpeed64 bothSpeedKeys fractional).player.speed
      = F64.fin f1_3pred := by
    rw [controlSpeed64_speed]
    exact specSpeed64_fractional_both
  have hu : (controlSpeed64 speedUpKey fractional).player.speed = F64.fin f2_3 := by
    rw [controlSpeed64_speed]
    exact specSpeed64_fractional_up
  refine ⟨round64_f1_3, rfl, by norm_num [f1_3], by norm_num [f1_3], hb, ?_, ?_, ?_,
    hu, ?_, ?_⟩
  · rw [hb]
    show F64.fin f1_3pred ≠ F64.fin f1_3
    intro e
    injection e with e
    norm_num [f1_3pred, f1_3] at e
  · norm_num [specSpeed, held, f1_3]
  · norm_num [f1_3pred, f1_3]
  · norm_num [specSpeed, held, f1_3]
  · norm_num [f2_3, f1_3]

/-- C11, amended: `controlSpeed` sets the speed to the float64 clamp: s + 1
when IncreaseSpeed is held, then - 1 when DecreaseSpeed is held, each rounded
to binary64, then clamped to [1, 20]; it changes no other field. A NaN speed
stays NaN. For a whole-number speed n in [1, 20] no rounding occurs and the
result is the exact clamp(n + [S held] - [D held], 1, 20): the speed changes
by at most 1, holding both keys leaves it unchanged, increasing at 20 stays 20
and decreasing at 1 stays 1. Every state reachable from `NewGame` has such a
whole-number speed. -/
theorem controlSpeed_refines_specSpeed64 :
    (∀ (k : Keys) (g : Game64),
      (controlSpeed64 k g).player.speed
        = specSpeed64 g.player.speed k.KeyS k.KeyD ∧
      controlSpeed64 k g = { g with player := { g.player with
        speed := specSpeed64 g.player.speed k.KeyS k.KeyD } } ∧
      (g.player.speed = F64.nan → (controlSpeed64 k g).player.speed = F64.nan)) ∧
    (∀ (k : Keys) (g : Game64) (n : ℤ), g.player.speed = F64.fin (n : ℚ) →
      1 ≤ n → n ≤ 20 →
      (controlSpeed64 k g).player.speed
        = F64.fin (max 1 (min 20 ((n : ℚ) + (if k.KeyS then 1 else 0)
            - (if k.KeyD then 1 else 0)))) ∧
      (controlSpeed64 k g).player.speed
        = F64.fin (specSpeed (n : ℚ) k.KeyS k.KeyD) ∧
      |specSpeed (n : ℚ) k.KeyS k.KeyD - (n : ℚ)| ≤ 1 ∧
      (k.KeyS = true → k.KeyD = true →
        (controlSpeed64 k g).player.speed = g.player.speed) ∧
      (n = 20 → k.KeyS = true → k.KeyD = false →
        (controlSpeed64 k g).player.speed = F64.fin 20) ∧
      (n = 1 → k.KeyD = true → k.KeyS = false →
        (controlSpeed64 k g).player.speed = F64.fin 1)) ∧
    (∀ (a : Assets) (ks : List Keys), ∃ n : ℤ, 1 ≤ n ∧ n ≤ 20 ∧
      (run64 a ks (NewGame64 a)).player.speed = F64.fin (n : ℚ)) := by
  refine ⟨fun k g => ⟨controlSpeed64_speed k g, controlSpeed64_eq k g, fun h => ?_⟩,
    fun k g n hs h1 h20 => ?_, fun a ks => ?_⟩
  · rw [controlSpeed64_speed, h]
    exact specSpeed64_nan _ _
  · have hn1 : (1 : ℚ) ≤ (n : ℚ) := by exact_mod_cast h1
    have hn20 : (n : ℚ) ≤ 20 := by exact_mod_cast h20
    have e : (controlSpeed64 k g).player.speed
        = F64.fin (specSpeed (n : ℚ) k.KeyS k.KeyD) := by
      rw [controlSpeed64_speed, hs, specSpeed64_intCast n h1 h20]
    refine ⟨?_, e, specSpeed_abs_sub_le _ hn1 hn20 _ _, fun hS hD => ?_,
      fun he hS hD => ?_, fun he hD hS => ?_⟩
    · rw [e]
      rfl
    · rw [e, hS, hD, hs]
      simp [specSpeed, held, hn1, hn20]
    · rw [e, hS, hD, he]
      norm_num [specSpeed, held]
    · rw [e, hS, hD, he]
      norm_num [specSpeed, held]
  · apply run64_speed_intCast
    refine ⟨12, by norm_num, by norm_num, ?_⟩
    rw [NewGame64_eq]
    norm_num

/-- C11 amended, evaluated on the start state (speed 12): with only S held the
speed becomes 13, a change of 1, and with both keys held it stays 12. -/
theorem controlSpeed_refines_specSpeed64_witness :
    (NewGame64 sampleAssets).player.speed = F64.fin ((12 : ℤ) : ℚ) ∧
    (controlSpeed64 speedUpKey (NewGame64 sampleAssets)).player.speed
      = F64.fin 13 ∧
    (controlSpeed64 bothSpeedKeys (NewGame64 sampleAssets)).player.speed
      = F64.fin 12 := by
  have hs : (NewGame64 sampleAssets).player.speed = F64.fin ((12 : ℤ) : ℚ) := by
    rw [NewGame64_eq]
    norm_num
  have h1 := controlSpeed_refines_specSpeed64.2.1 speedUpKey (NewGame64 sampleAssets)
    12 hs (by norm_num) (by norm_num)
  have h2 := controlSpeed_refines_specSpeed64.2.1 bothSpeedKeys
    (NewGame64 sampleAssets) 12 hs (by norm_num) (by norm_num)
  refine ⟨hs, ?_, ?_⟩
  · rw [h1.1]
    norm_num [speedUpKey, noKeys]
  · rw [h2.2.2.2.1 rfl rfl, NewGame64_eq]

/-- C17, as stated, fails in float64: in the state `deep` (x = 320, so the
guard is off; y = -2^53; speed 1) `movePlayer` with only Up held leaves y at
-2^53, because -2^53 - 1 is not a binary64 value and rounds back to -2^53; it
does not set y to y - speed. -/
theorem vertical_step_counterexample :
    F64.round64 (-(2 ^ 53)) = F64.fin (-(2 ^ 53)) ∧
    deep.player.yPos = F64.fin (-(2 ^ 53)) ∧ deep.player.speed = F64.fin 1 ∧
    F64.gt (F64.add deep.player.xPos (F64.ofInt deep.player.image.Dx))
      (F64.ofInt deep.background.Dx) = false ∧
    (movePlayer64 upKey deep).player.yPos = F64.fin (-(2 ^ 53)) ∧
    (movePlayer64 upKey deep).player.yPos ≠ F64.fin (-(2 ^ 53) - 1) := by
  refine ⟨round64_deep, rfl, rfl, guard64_deep, movePlayer64_upKey_deep, ?_⟩
  rw [movePlayer64_upKey_deep]
  intro e
  injection e with e
  norm_num at e

/-- C17, amended: the vertical position is never clamped and the guard looks
only at the horizontal overflow: whenever the guard does not fire,
`movePlayer` with only Up held sets y to the float64 difference y - speed and
with only Down held to the float64 sum y + speed, for every y; for whole
numbers y and speed with |y - speed| (or |y + speed|) at most 2^53 the result
is exact. From the start state, with image widths of magnitude at most 2^52,
player sprite width at most background width - 320 and obstacle sprite width
at most 160, 21 consecutive Updates holding only Up stay in Playing mode and
reach y = -12 < 0. -/
theorem vertical_unclamped64 :
    (∀ (k : Keys) (g : Game64),
      F64.gt (F64.add g.player.xPos (F64.ofInt g.player.image.Dx))
        (F64.ofInt g.background.Dx) = false →
      (k.KeyUp = true → k.KeyDown = false → k.KeyLeft = false → k.KeyRight = false →
        (movePlayer64 k g).player.yPos = F64.sub g.player.yPos g.player.speed) ∧
      (k.KeyDown = true → k.KeyUp = false → k.KeyLeft = false → k.KeyRight = false →
        (movePlayer64 k g).player.yPos = F64.add g.player.yPos g.player.speed)) ∧
    (∀ (k : Keys) (g : Game64) (y s : ℤ),
      F64.gt (F64.add g.player.xPos (F64.ofInt g.player.image.Dx))
        (F64.ofInt g.background.Dx) = false →
      g.player.yPos = F64.fin (y : ℚ) → g.player.speed = F64.fin (s : ℚ) →
      (k.KeyUp = true → k.KeyDown = false → k.KeyLeft = false → k.KeyRight = false →
        |y - s| ≤ 2 ^ 53 →
        (movePlayer64 k g).player.yPos = F64.fin ((y : ℚ) - (s : ℚ))) ∧
      (k.KeyDown = true → k.KeyUp = false → k.KeyLeft = false → k.KeyRight = false →
        |y + s| ≤ 2 ^ 53 →
        (movePlayer64 k g).player.yPos = F64.fin ((y : ℚ) + (s : ℚ)))) ∧
    (∀ a : Assets, |a.rocket.Dx| ≤ 2 ^ 52 → |a.space.Dx| ≤ 2 ^ 52 →
      |a.rock.Dx| ≤ 2 ^ 52 → a.rocket.Dx ≤ a.space.Dx - 320 → a.rock.Dx ≤ 160 →
      (∀ n : Nat, n ≤ 21 →
        (run64 a (List.replicate n upKey) (NewGame64 a)).mode = GameMode) ∧
      (run64 a (List.replicate 21 upKey) (NewGame64 a)).player.yPos = F64.fin (-12) ∧
      F64.lt (run64 a (List.replicate 21 upKey) (NewGame64 a)).player.yPos (F64.fin 0)
        = true) := by
  have step : ∀ (k : Keys) (g : Game64),
      F64.gt (F64.add g.player.xPos (F64.ofInt g.player.image.Dx))
        (F64.ofInt g.background.Dx) = false →
      (k.KeyUp = true → k.KeyDown = false → k.KeyLeft = false → k.KeyRight = false →
        (movePlayer64 k g).player.yPos = F64.sub g.player.yPos g.player.speed) ∧
      (k.KeyDown = true → k.KeyUp = false → k.KeyLeft = false → k.KeyRight = false →
        (movePlayer64 k g).player.yPos = F64.add g.player.yPos g.player.speed) := by
    intro k g h
    have hy := movePlayer64_yPos k g h
    refine ⟨fun hu hd _ _ => ?_, fun hd hu _ _ => ?_⟩
    · rw [hy, hu, hd]
      rfl
    · rw [hy, hu, hd]
      rfl
  refine ⟨step, fun k g y s h hy hs => ⟨fun hu hd hl hr hb => ?_,
    fun hd hu hl hr hb => ?_⟩, fun a hb1 hb2 hb3 hp hr => ?_⟩
  · rw [(step k g h).1 hu hd hl hr, hy, hs]
    exact F64.sub_int y s _ _ _ rfl rfl rfl hb
  · rw [(step k g h).2 hd hu hl hr, hy, hs]
    exact F64.add_int y s _ _ _ rfl rfl rfl hb
  · have hrun : ∀ n : Nat, n ≤ 21 →
        run64 a (List.replicate n upKey) (NewGame64 a) = climbed64 a n := by
      intro n hn
      have := run64_climbed a 0 n (by omega) hp hr hb1 hb2 hb3
      rw [climbed64_zero, Nat.zero_add] at this
      exact this
    refine ⟨fun n hn => ?_, ?_, ?_⟩
    · rw [hrun n hn]
      rfl
    · rw [hrun 21 (le_refl 21)]
      show F64.fin (240 - 12 * ((21 : ℕ) : ℚ)) = F64.fin (-12)
      norm_num
    · rw [hrun 21 (le_refl 21)]
      show F64.lt (F64.fin (240 - 12 * ((21 : ℕ) : ℚ))) (F64.fin 0) = true
      rw [F64.lt_fin]
      exact decide_eq_true (by norm_num)

/-- C17 amended, evaluated with the sample images on the start state: one
`movePlayer` with only Up held moves y from 240 to 228, and 21 Updates with
only Up held end in Playing mode at y = -12. -/
theorem vertical_unclamped64_witness :
    F64.gt (F64.add (NewGame64 sampleAssets).player.xPos
        (F64.ofInt (NewGame64 sampleAssets).player.image.Dx))
      (F64.ofInt (NewGame64 sampleAssets).background.Dx) = false ∧
    (movePlayer64 upKey (NewGame64 sampleAssets)).player.yPos = F64.fin 228 ∧
    (run64 sampleAssets (List.replicate 21 upKey) (NewGame64 sampleAssets)).mode
      = GameMode ∧
    (run64 sampleAssets (List.replicate 21 upKey)
      (NewGame64 sampleAssets)).player.yPos = F64.fin (-12) := by
  have hg : F64.gt (F64.add (NewGame64 sampleAssets).player.xPos
        (F64.ofInt (NewGame64 sampleAssets).player.image.Dx))
      (F64.ofInt (NewGame64 sampleAssets).background.Dx) = false := by
    rw [NewGame64_eq]
    have h := guard64_int 320 32 640 (by norm_num) (by norm_num) (by norm_num)
    norm_num at h
    exact h
  have hy : (NewGame64 sampleAssets).player.yPos = F64.fin ((240 : ℤ) : ℚ) := by
    rw [NewGame64_eq]
    norm_num
  have hs : (NewGame64 sampleAssets).player.speed = F64.fin ((12 : ℤ) : ℚ) := by
    rw [NewGame64_eq]
    norm_num
  have h2 := (vertical_unclamped64.2.1 upKey (NewGame64 sampleAssets) 240 12 hg hy hs).1
    rfl rfl rfl rfl (by norm_num)
  have h3 := vertical_unclamped64.2.2 sampleAssets (by norm_num [sampleAssets])
    (by norm_num [sampleAssets]) (by norm_num [sampleAssets]) (by decide) (by decide)
  refine ⟨hg, ?_, h3.1 21 (le_refl 21), h3.2.1⟩
  rw [h2]
  norm_num

/-- C18, as stated, fails in float64: from the Playing state `fractional`
(x = 320, guard off, speed the binary64 value 1.3), one Update with
IncreaseSpeed and Right held stores the rounded speed 2.3, not the exact
clamp(1.3 + 1, 1, 20), and moves x to the rounded sum 322.3, not to
320 + clamp(1.3 + 1, 1, 20). -/
theorem frame_order_counterexample :
    fractional.mode = GameMode ∧
    fractional.player.xPos = F64.fin 320 ∧ fractional.player.speed = F64.fin f1_3 ∧
    F64.gt (F64.add fractional.player.xPos (F64.ofInt fractional.player.image.Dx))
      (F64.ofInt fractional.background.Dx) = false ∧
    specSpeed f1_3 true false = f1_3 + 1 ∧
    (Update64 sampleAssets speedUpRightKeys fractional).player.speed = F64.fin f2_3 ∧
    f2_3 ≠ f1_3 + 1 ∧
    (Update64 sampleAssets speedUpRightKeys fractional).player.xPos
      = F64.fin f322_3 ∧
    f322_3 ≠ 320 + (f1_3 + 1) := by
  have hs : (controlSpeed64 speedUpRightKeys fractional).player.speed
      = F64.fin f2_3 := by
    rw [controlSpeed64_speed]
    exact specSpeed64_fractional_up
  have hg : F64.gt (F64.add (controlSpeed64 speedUpRightKeys fractional).player.xPos
        (F64.ofInt (controlSpeed64 speedUpRightKeys fractional).player.image.Dx))
      (F64.ofInt (controlSpeed64 speedUpRightKeys fractional).background.Dx)
      = false := by
    rw [controlSpeed64_xPos, controlSpeed64_image, controlSpeed64_background]
    exact guard64_fractional
  refine ⟨rfl, rfl, rfl, guard64_fractional, ?_, ?_, ?_, ?_, ?_⟩
  · norm_num [specSpeed, held, f1_3]
  · rw [Update64_speed_GameMode _ _ _ rfl]
    exact specSpeed64_fractional_up
  · norm_num [f2_3, f1_3]
  · rw [Update64_player_GameMode _ _ _ rfl,
      movePlayer64_rightKey speedUpRightKeys _ ⟨rfl, rfl, rfl, rfl⟩ hg]
    show F64.add (controlSpeed64 speedUpRightKeys fractional).player.xPos
      (controlSpeed64 speedUpRightKeys fractional).player.speed = F64.fin f322_3
    rw [controlSpeed64_xPos, hs]
    show F64.add (F64.fin 320) (F64.fin f2_3) = F64.fin f322_3
    rw [F64.add_fin, round64_f2_3_add_320]
  · norm_num [f322_3, f1_3]

/-- C18, amended: in Playing mode `Update` adjusts the speed first, then
moves, then checks the collision, so the displacement of a frame uses the
adjusted speed, which is the float64 clamp of s + inc - dec to [1, 20]: the
player after `Update` is the player after `movePlayer` run at that speed, and
when the guard does not fire each held direction adds or subtracts that speed
in float64. From the start state (speed 12, x = 320), with image widths of
magnitude at most 2^52 and player sprite width at most background width - 320,
one Update with IncreaseSpeed and Right held gives speed 13 and x = 333. -/
theorem frame_order64 (a : Assets) (k : Keys) (g : Game64)
    (hm : g.mode = GameMode) :
    Update64 a k g =
      (if hit64 (movePlayer64 k (controlSpeed64 k g)) then
        { movePlayer64 k (controlSpeed64 k g) with mode := GameOverMode }
      else movePlayer64 k (controlSpeed64 k g)) ∧
    (Update64 a k g).player.speed = specSpeed64 g.player.speed k.KeyS k.KeyD ∧
    (Update64 a k g).player =
      (movePlayer64 k { g with player := { g.player with
        speed := specSpeed64 g.player.speed k.KeyS k.KeyD } }).player ∧
    (F64.gt (F64.add g.player.xPos (F64.ofInt g.player.image.Dx))
        (F64.ofInt g.background.Dx) = false →
      (Update64 a k g).player.xPos =
        (if k.KeyRight then
          F64.add (if k.KeyLeft then
              F64.sub g.player.xPos (specSpeed64 g.player.speed k.KeyS k.KeyD)
            else g.player.xPos) (specSpeed64 g.player.speed k.KeyS k.KeyD)
        else if k.KeyLeft then
          F64.sub g.player.xPos (specSpeed64 g.player.speed k.KeyS k.KeyD)
        else g.player.xPos) ∧
      (Update64 a k g).player.yPos =
        (if k.KeyDown then
          F64.add (if k.KeyUp then
              F64.sub g.player.yPos (specSpeed64 g.player.speed k.KeyS k.KeyD)
            else g.player.yPos) (specSpeed64 g.player.speed k.KeyS k.KeyD)
        else if k.KeyUp then
          F64.sub g.player.yPos (specSpeed64 g.player.speed k.KeyS k.KeyD)
        else g.player.yPos)) ∧
    (∀ a0 : Assets, |a0.rocket.Dx| ≤ 2 ^ 52 → |a0.space.Dx| ≤ 2 ^ 52 →
      a0.rocket.Dx ≤ a0.space.Dx - 320 →
      (Update64 a0 speedUpRightKeys (NewGame64 a0)).player.speed = F64.fin 13 ∧
      (Update64 a0 speedUpRightKeys (NewGame64 a0)).player.xPos = F64.fin 333) := by
  have hpos : ∀ (a1 : Assets) (k1 : Keys) (g1 : Game64), g1.mode = GameMode →
      F64.gt (F64.add g1.player.xPos (F64.ofInt g1.player.image.Dx))
        (F64.ofInt g1.background.Dx) = false →
      (Update64 a1 k1 g1).player.xPos =
        (if k1.KeyRight then
          F64.add (if k1.KeyLeft then
              F64.sub g1.player.xPos (specSpeed64 g1.player.speed k1.KeyS k1.KeyD)
            else g1.player.xPos) (specSpeed64 g1.player.speed k1.KeyS k1.KeyD)
        else if k1.KeyLeft then
          F64.sub g1.player.xPos (specSpeed64 g1.player.speed k1.KeyS k1.KeyD)
        else g1.player.xPos) ∧
      (Update64 a1 k1 g1).player.yPos =
        (if k1.KeyDown then
          F64.add (if k1.KeyUp then
              F64.sub g1.player.yPos (specSpeed64 g1.player.speed k1.KeyS k1.KeyD)
            else g1.player.yPos) (specSpeed64 g1.player.speed k1.KeyS k1.KeyD)
        else if k1.KeyUp then
          F64.sub g1.player.yPos (specSpeed64 g1.player.speed k1.KeyS k1.KeyD)
        else g1.player.yPos) := by
    intro a1 k1 g1 hm1 hg1
    have hg2 : F64.gt (F64.add (controlSpeed64 k1 g1).player.xPos
          (F64.ofInt (controlSpeed64 k1 g1).player.image.Dx))
        (F64.ofInt (controlSpeed64 k1 g1).background.Dx) = false := by
      rw [controlSpeed64_xPos, controlSpeed64_image, controlSpeed64_background]
      exact hg1
    rw [Update64_player_GameMode a1 k1 g1 hm1, movePlayer64_xPos k1 _ hg2,
      movePlayer64_yPos k1 _ hg2, controlSpeed64_xPos, controlSpeed64_yPos,
      controlSpeed64_speed]
    exact ⟨rfl, rfl⟩
  refine ⟨Update64_GameMode a k g hm, Update64_speed_GameMode a k g hm, ?_,
    hpos a k g hm, fun a0 hb1 hb2 h0 => ?_⟩
  · rw [Update64_player_GameMode a k g hm, controlSpeed64_eq]
  · have hm0 : (NewGame64 a0).mode = GameMode := by rw [NewGame64_eq]
    have hg0 : F64.gt (F64.add (NewGame64 a0).player.xPos
          (F64.ofInt (NewGame64 a0).player.image.Dx))
        (F64.ofInt (NewGame64 a0).background.Dx) = false := by
      apply guard64_start
      · rw [NewGame64_eq]
      · rw [NewGame64_eq]
        exact h0
      · rw [NewGame64_eq]
        exact hb1
      · rw [NewGame64_eq]
        exact hb2
    have hs0 : specSpeed64 (NewGame64 a0).player.speed speedUpRightKeys.KeyS
        speedUpRightKeys.KeyD = F64.fin 13 := by
      have h := specSpeed64_intCast 12 (by norm_num) (by norm_num) true false
      norm_num [specSpeed, held] at h
      rw [NewGame64_eq]
      exact h
    rw [Update64_speed_GameMode a0 _ _ hm0, (hpos a0 _ _ hm0 hg0).1, hs0]
    refine ⟨rfl, ?_⟩
    rw [NewGame64_eq]
    show F64.add (F64.fin 320) (F64.fin 13) = F64.fin 333
    exact F64.add_int 320 13 _ _ _ (by norm_num) (by norm_num) (by norm_num)
      (by norm_num)

/-- C18 amended, evaluated with the sample images: the start state,
IncreaseSpeed and Right held, ends the frame at speed 13 and x = 333. -/
theorem frame_order64_witness :
    (NewGame64 sampleAssets).mode = GameMode ∧
    (Update64 sampleAssets speedUpRightKeys (NewGame64 sampleAssets)).player.speed
      = F64.fin 13 ∧
    (Update64 sampleAssets speedUpRightKeys (NewGame64 sampleAssets)).player.xPos
      = F64.fin 333 := by
  have hm : (NewGame64 sampleAssets).mode = GameMode := by rw [NewGame64_eq]
  have h := (frame_order64 sampleAssets speedUpRightKeys (NewGame64 sampleAssets)
    hm).2.2.2.2 sampleAssets (by norm_num [sampleAssets]) (by norm_num [sampleAssets])
    (by decide)
  exact ⟨hm, h.1, h.2⟩

/-- C19, as stated, fails in float64: in the Playing state `sliver` (x = 2^-60,
rocket and background both 640 wide) exactly
`player.x + player sprite width > background width`, yet the program's guard
does not fire (2^-60 + 640 rounds to 640) and one Update with Left held moves
the player to x = -12 and turns the heading to 270 degrees. -/
theorem stuck_state_counterexample :
    sliver.mode = GameMode ∧
    sliver.player.xPos = F64.fin (1 / 2 ^ 60) ∧
    sliver.player.image.Dx = 640 ∧ sliver.background.Dx = 640 ∧
    sliver.player.angleRadians = 0 ∧
    ((1 / 2 ^ 60 : ℚ) + ((640 : ℤ) : ℚ) > ((640 : ℤ) : ℚ)) ∧
    (Update64 sampleAssets leftKey sliver).player.xPos = F64.fin (-12) ∧
    (Update64 sampleAssets leftKey sliver).player.xPos ≠ sliver.player.xPos ∧
    (Update64 sampleAssets leftKey sliver).player.angleRadians
      = 270 * mathPi / 180 ∧
    (Update64 sampleAssets leftKey sliver).player.angleRadians
      ≠ sliver.player.angleRadians := by
  have hp : (Update64 sampleAssets leftKey sliver).player
      = (movePlayer64 leftKey sliver).player := by
    rw [Update64_player_GameMode _ _ _ rfl, controlSpeed64_sliver]
  have h := movePlayer64_leftKey_sliver
  refine ⟨rfl, rfl, rfl, rfl, rfl, by norm_num, ?_, ?_, ?_, ?_⟩
  · rw [hp]
    exact h.1
  · rw [hp, h.1]
    show F64.fin (-12) ≠ F64.fin (1 / 2 ^ 60)
    intro e
    injection e with e
    norm_num at e
  · rw [hp]
    exact h.2.2
  · rw [hp, h.2.2]
    show 270 * mathPi / 180 ≠ (0 : ℚ)
    norm_num [mathPi]

/-- C19, amended: once the guard as the program evaluates it fires, that is,
once the binary64 sum `player.x + float64(sprite width)` compares greater than
`float64(background width)`, the player position and heading are the same
after every further sequence of Updates, with any key inputs and through
whatever modes, and the guard still fires: the state stays stuck. -/
theorem stuck_state_absorbing64 (a : Assets) (g : Game64) (ks : List Keys)
    (h : F64.gt (F64.add g.player.xPos (F64.ofInt g.player.image.Dx))
      (F64.ofInt g.background.Dx) = true) :
    (run64 a ks g).player.xPos = g.player.xPos ∧
    (run64 a ks g).player.yPos = g.player.yPos ∧
    (run64 a ks g).player.angleRadians = g.player.angleRadians ∧
    F64.gt (F64.add (run64 a ks g).player.xPos
        (F64.ofInt (run64 a ks g).player.image.Dx))
      (F64.ofInt (run64 a ks g).background.Dx) = true := by
  have h1 := run64_stuck a ks g h
  refine ⟨h1.1, h1.2.1, h1.2.2.1, ?_⟩
  rw [h1.1, h1.2.2.2.1, h1.2.2.2.2]
  exact h

/-- C19 amended, evaluated on a state whose rocket overlaps the right edge
(620 + 32 > 640): three frames with every key but Space held leave the player
at (620, 240) with heading 0. -/
theorem stuck_state_absorbing64_witness :
    F64.gt (F64.add pastRightEdge64.player.xPos
        (F64.ofInt pastRightEdge64.player.image.Dx))
      (F64.ofInt pastRightEdge64.background.Dx) = true ∧
    (run64 sampleAssets (List.replicate 3 allButSpaceKeys)
      pastRightEdge64).player.xPos = F64.fin 620 ∧
    (run64 sampleAssets (List.replicate 3 allButSpaceKeys)
      pastRightEdge64).player.yPos = F64.fin 240 ∧
    (run64 sampleAssets (List.replicate 3 allButSpaceKeys)
      pastRightEdge64).player.angleRadians = 0 := by
  have hg : F64.gt (F64.add pastRightEdge64.player.xPos
        (F64.ofInt pastRightEdge64.player.image.Dx))
      (F64.ofInt pastRightEdge64.background.Dx) = true := by
    have h := guard64_int 620 32 640 (by norm_num) (by norm_num) (by norm_num)
    norm_num at h
    exact h
  have h := stuck_state_absorbing64 sampleAssets pastRightEdge64
    (List.replicate 3 allButSpaceKeys) hg
  exact ⟨hg, h.1, h.2.1, h.2.2.1⟩

end Spacegame
